import Mathlib

/-!
# sqlfly: the in-memory struct table

A shallow embedding of `StructTable.go` and `Errors.go`.

The program works through Go's `reflect` package.  The embedding keeps what
the program reads of a type (`Kind()`, `String()`, the field list, `Elem()`)
and of a value (its type and its field values), and makes every run-time
fault explicit: a call returns normally, returns an error, panics, or ends
the process (`log.Fatalf`).

Conventions of the embedding:
* a struct type is its list of declared fields; an embedded field carries the fields
  promoted through it, and `FieldByName` looks a name up among the declared fields
  first and the promoted fields next, as reflect does;
* the type whose `String()` is `"time.Time"` is the standard timestamp type;
* a floating-point value is its IEEE-754 binary64 bit pattern, compared as
  Go's `==` compares (`NaN` equals nothing, the two zeros are equal);
* a timestamp is compared as Go's `==` compares `time.Time` structs: instant,
  monotonic reading and location pointer;
* two different struct types may have the same `String()` (reflect does not promise
  it to be unique among types), so a value carries its own type;
* in the statements, "same value" and "differs" on a column are the equality rule of
  the column's kind, that is Go's `==` (`FieldValue.goEq`).
-/

set_option linter.unusedVariables false

namespace Sqlfly

/-! ## reflect: kinds, types, values -/

/-- The kinds of `reflect.Kind` (`reflect.Bool` is `Kind.bool`, and so on). -/
inductive Kind where
  | invalid | bool
  | int | int8 | int16 | int32 | int64
  | uint | uint8 | uint16 | uint32 | uint64 | uintptr
  | float32 | float64 | complex64 | complex128
  | array | chan | func | interface | map | ptr | slice
  | string | struct | unsafePointer
  deriving DecidableEq, Repr

/-- What the program reads of a field's `reflect.Type`: `Kind()` and `String()`. -/
structure FieldType where
  kind : Kind
  str : String
  deriving DecidableEq, Repr

/-- A field that a struct type has by promotion from an embedded struct: the `Name`
and `Type` of the `reflect.StructField` that `FieldByName` returns for it. -/
structure PromotedField where
  Name : String
  Typ : FieldType
  nonempty : Name ≠ "" := by decide
  deriving DecidableEq

/-- A `reflect.StructField`: `Name` and `Type` (here `Typ`).  A Go field name is an
identifier, hence not empty.  For an embedded field, `Promoted` lists the fields of
the embedded struct that the enclosing type has by promotion, that is the ones that
reflect's `FieldByName` resolves through this field (a name that is ambiguous or
hidden at a lesser depth is not promoted); it is empty for any other field. -/
structure StructField where
  Name : String
  Typ : FieldType
  nonempty : Name ≠ "" := by decide
  Promoted : List PromotedField := []
  deriving DecidableEq

/-- The `reflect.StructField` of a promoted field. -/
def PromotedField.toField (p : PromotedField) : StructField :=
  { Name := p.Name, Typ := p.Typ, nonempty := p.nonempty }

/-- The fields that a list of declared fields has by promotion, in the order of the
embedded fields. -/
def promotedFields : List StructField → List StructField
  | [] => []
  | f :: rest => f.Promoted.map PromotedField.toField ++ promotedFields rest

/-- The fields that a name can select in a struct type with the given declared fields:
the declared fields, then the promoted ones. -/
def selectableFields (fields : List StructField) : List StructField :=
  fields ++ promotedFields fields

/-- A (non-nil) `reflect.Type` as far as the program inspects it: a struct type
with its `String()` and declared fields, a pointer type with its element type,
or a type of any other kind. -/
inductive GoType where
  | struct (str : String) (fields : List StructField)
  | ptr (elem : GoType)
  | other (kind : Kind) (str : String)
      (notStruct : kind ≠ Kind.struct) (notPtr : kind ≠ Kind.ptr)
  deriving DecidableEq

/-- The method `Type.Kind()`. -/
def GoType.Kind : GoType → Kind
  | .struct _ _ => Kind.struct
  | .ptr _ => Kind.ptr
  | .other k _ _ _ => k

/-- The method `Type.String()` (here `Str`). -/
def GoType.Str : GoType → String
  | .struct s _ => s
  | .ptr e => "*" ++ e.Str
  | .other _ s _ _ => s

/-- The method `Type.Elem()`; `none` is the panic on a type without element
(the program calls it on pointer types only). -/
def GoType.Elem : GoType → Option GoType
  | .ptr e => some e
  | _ => none

/-- The fields `Type.Field(0) .. Type.Field(NumField()-1)`; `none` is the panic
of `NumField` on a type that is not a struct. -/
def GoType.Fields : GoType → Option (List StructField)
  | .struct _ fs => some fs
  | _ => none

/-- The method `Type.FieldByName(name)`: the first declared field of that name, or,
when there is none, the field of that name promoted from an embedded struct.  Outer
`none` is the panic on a type that is not a struct, inner `none` is `exist = false`. -/
def GoType.FieldByName (t : GoType) (name : String) : Option (Option StructField) :=
  match t with
  | .struct _ fs => some ((selectableFields fs).find? (fun f => f.Name == name))
  | _ => none

/-- A `time.Time`: the instant (nanoseconds since the epoch), the monotonic clock
reading if any, and the location pointer (`0` is nil).  The derived equality is
Go's `==` on `time.Time`, which compares all three. -/
structure Time where
  instant : Int
  mono : Option Int
  loc : Nat
  deriving DecidableEq, Repr

/-- The content of a struct field, as the accessors of `reflect.Value` return it:
`Bool()`, `Int()` (widened to int64), `Uint()` (widened to uint64), `Float()`
(widened to float64, as its bit pattern), `String()`, a `time.Time`, or a value of
a kind the program never reads. -/
inductive FieldValue where
  | bool (b : Bool)
  | int (i : Int)
  | uint (n : Nat)
  | float (bits : Nat)
  | string (s : String)
  | time (t : Time)
  | other (id : Nat)
  deriving DecidableEq, Repr

/-- A value of type `interface{}`: its dynamic type (`reflect.TypeOf`, `none` for
the nil interface value) and, for a struct, the values of its fields in
declaration order. -/
structure GoValue where
  typ : Option GoType
  vals : List FieldValue
  deriving DecidableEq

/-- A `reflect.Value` obtained by `Value.Field(i)`: the field's type and content. -/
structure Value where
  typ : FieldType
  val : FieldValue
  deriving DecidableEq, Repr

/-- The method `Value.Field(i)` of `reflect.ValueOf(v)`; `none` is the panic when `v`
is not a struct or `i` is out of range. -/
def GoValue.Field (v : GoValue) (i : Nat) : Option Value :=
  match v.typ with
  | some (.struct _ fs) =>
    match fs[i]?, v.vals[i]? with
    | some f, some x => some ⟨f.Typ, x⟩
    | _, _ => none
  | _ => none

/-- The method `Value.Bool()`; `none` is the panic on a value of another kind. -/
def Value.getBool (v : Value) : Option Bool :=
  match v.typ.kind, v.val with
  | .bool, .bool b => some b
  | _, _ => none

/-- Signed integer kinds. -/
def Kind.isInt : Kind → Bool
  | .int | .int8 | .int16 | .int32 | .int64 => true
  | _ => false

/-- Unsigned integer kinds. -/
def Kind.isUint : Kind → Bool
  | .uint | .uint8 | .uint16 | .uint32 | .uint64 | .uintptr => true
  | _ => false

/-- Floating-point kinds. -/
def Kind.isFloat : Kind → Bool
  | .float32 | .float64 => true
  | _ => false

/-- The method `Value.Int()`; `none` is the panic on a value of another kind. -/
def Value.getInt (v : Value) : Option Int :=
  match v.val with
  | .int i => if v.typ.kind.isInt then some i else none
  | _ => none

/-- The method `Value.Uint()`; `none` is the panic on a value of another kind. -/
def Value.getUint (v : Value) : Option Nat :=
  match v.val with
  | .uint n => if v.typ.kind.isUint then some n else none
  | _ => none

/-- The method `Value.Float()`; `none` is the panic on a value of another kind. -/
def Value.getFloat (v : Value) : Option Nat :=
  match v.val with
  | .float x => if v.typ.kind.isFloat then some x else none
  | _ => none

/-- The method `Value.String()`: the string of a string value; for a value of any
other kind it does not panic and returns `"<T Value>"`, `T` being the type. -/
def Value.getString (v : Value) : String :=
  match v.typ.kind, v.val with
  | .string, .string s => s
  | _, _ => "<" ++ v.typ.str ++ " Value>"

/-- The expression `v.Interface().(time.Time)`; `none` is the panic of the type
assertion on a value that is not a `time.Time`. -/
def Value.getTime (v : Value) : Option Time :=
  match v.val with
  | .time t => if v.typ.kind = Kind.struct ∧ v.typ.str = "time.Time" then some t else none
  | _ => none

/-- Whether a binary64 bit pattern is a NaN. -/
def floatIsNaN (bits : Nat) : Bool :=
  (bits / 2 ^ 52) % 2 ^ 11 == 2047 && bits % 2 ^ 52 != 0

/-- Whether a binary64 bit pattern is `+0` or `-0`. -/
def floatIsZero (bits : Nat) : Bool :=
  bits % 2 ^ 63 == 0

/-- Go's `==` on two float64 values given by their bit patterns. -/
def floatEq (a b : Nat) : Bool :=
  !floatIsNaN a && !floatIsNaN b && (a == b || (floatIsZero a && floatIsZero b))

/-! ## Errors.go -/

/-- An error value: created without a wrapped error, or by `fmt.Errorf` with `%w`. -/
inductive Err where
  | New (msg : String)
  | Wrap (msg : String) (err : Err)
  deriving DecidableEq, Repr

/-- The method `Error()`. -/
def Err.Error : Err → String
  | .New m => m
  | .Wrap m _ => m

/-- The call `fmt.Errorf("%w" ++ rest, err)` where `rest` is the formatted tail. -/
def Errorf (err : Err) (rest : String) : Err :=
  .Wrap (err.Error ++ rest) err

/-- The chain `e, Unwrap(e), Unwrap(Unwrap(e)), ...`. -/
def Err.chain : Err → List Err
  | .New m => [.New m]
  | .Wrap m e => .Wrap m e :: e.chain

/-- The function `errors.Is(e, target)`. -/
def Err.Is (e target : Err) : Bool :=
  e.chain.contains target

def ErrMetaNotAStruct : Err := .New "the table meta data is not a struct"
def ErrInvalidColumnName : Err := .New "invalid column name"
def ErrColumnNameEmpty : Err := Errorf ErrInvalidColumnName " : specified column name is empty"
def ErrColumnNameNotExist : Err :=
  Errorf ErrInvalidColumnName " : specified column name not exist in struct"
def ErrUniquesColumnNameNotExist : Err := Errorf ErrColumnNameNotExist " : unique column"
def ErrNullsColumnNameNotExist : Err := Errorf ErrColumnNameNotExist " : null column"
def ErrInsertError : Err := .New "problem when inserting data"
def ErrCanNotInsertNoStructType : Err := Errorf ErrInsertError " : can not insert non struct"
def ErrCanNotInsertNonNativeType : Err :=
  Errorf ErrInsertError " : can not insert non native field"
def ErrIncompatibleStruct : Err := Errorf ErrInsertError " : incompatible struct to insert"
def ErrUniqueConstraintViolation : Err :=
  Errorf ErrInsertError " : unique field constraint violation"
def ErrEvaluationError : Err := .New "problem when evaluating data"

/-- How a call ends: a normal return without error, a normal return with an
error, a run-time panic, or the end of the process by `log.Fatalf`. -/
inductive Outcome (α : Type) where
  | ok (val : α)
  | error (err : Err)
  | panic
  | fatal
  deriving DecidableEq, Repr

/-! ## StructTable.go -/

/-- The classification `BaseKind`. -/
inductive BaseKind where
  | BaseKindInt | BaseKindUint | BaseKindFloat | BaseKindBool
  | BaseKindString | BaseKindTime | BaseKindOther
  deriving DecidableEq, Repr

open BaseKind

/-- The struct `StructTable`. -/
structure StructTable where
  MetaType : GoType
  Uniques : List String
  dataSet : List GoValue
  deriving DecidableEq

/-- The byte `[]byte(s)[0]`: the first byte of the UTF-8 encoding of `s`; `none` is
the index panic on the empty string. -/
def headByte (s : String) : Option Nat :=
  match s.data with
  | [] => none
  | c :: _ =>
    let n := c.toNat
    if n < 128 then some n
    else if n < 2048 then some (192 + n / 64)
    else if n < 65536 then some (224 + n / 4096)
    else some (240 + n / 262144)

/-- The method `columnExist`. -/
def StructTable.columnExist (st : StructTable) (columnName : String) : Outcome Unit :=
  match st.MetaType.FieldByName columnName with
  | none => .panic
  | some (some _) =>
    match headByte columnName with
    | none => .panic
    | some b => if b ≥ 65 ∧ b ≤ 90 then .ok () else .error ErrColumnNameNotExist
  | some none => .error ErrColumnNameNotExist

/-- The loop of `columnsExist` over the names that remain. -/
def StructTable.columnsExistLoop (st : StructTable) : List String → Outcome Unit
  | [] => .ok ()
  | k :: rest =>
    if k.length = 0 then .error ErrColumnNameEmpty
    else
      match st.columnExist k with
      | .ok _ => st.columnsExistLoop rest
      | r => r

/-- The method `columnsExist`. -/
def StructTable.columnsExist (st : StructTable) (columnNames : List String) : Outcome Unit :=
  if columnNames.length > 0 then st.columnsExistLoop columnNames else .ok ()

/-- The method `validate`. -/
def StructTable.validate (st : StructTable) : Outcome Unit :=
  if st.MetaType.Kind ≠ Kind.struct then .error ErrMetaNotAStruct
  else
    match st.columnsExist st.Uniques with
    | .ok _ => .ok ()
    | .error _ => .error ErrUniquesColumnNameNotExist
    | .panic => .panic
    | .fatal => .fatal

/-- The constructor `NewStructTable`. -/
def NewStructTable (metaType : GoType) (uniques : List String) : Outcome StructTable :=
  let ret : StructTable := { MetaType := metaType, Uniques := uniques, dataSet := [] }
  let step (ret : StructTable) : Outcome StructTable :=
    match ret.validate with
    | .ok _ => .ok ret
    | .error e => .error e
    | .panic => .panic
    | .fatal => .fatal
  if metaType.Kind = Kind.ptr then
    match metaType.Elem with
    | some e => step { ret with MetaType := e }
    | none => .panic
  else step ret

/-- The method `Count`. -/
def StructTable.Count (st : StructTable) : Nat :=
  st.dataSet.length

/-- The function `Contains`. -/
def Contains : List String → String → Bool
  | [], _ => false
  | ss :: arr, s => if s = ss then true else Contains arr s

/-- The function `GetBaseKindOfType`. -/
def GetBaseKindOfType (typ : FieldType) : BaseKind :=
  match typ.kind with
  | .bool => BaseKindBool
  | .int | .int8 | .int16 | .int32 | .int64 => BaseKindInt
  | .uint | .uint8 | .uint16 | .uint32 | .uint64 | .uintptr => BaseKindUint
  | .float32 | .float64 => BaseKindFloat
  | .string => BaseKindString
  | .struct => if typ.str = "time.Time" then BaseKindTime else BaseKindOther
  | _ => BaseKindOther

/-- The kinds at which `Insert` skips a field before the uniqueness check
(the `switch` under "check for nulls"). -/
def insertSkips (typ : FieldType) : Bool :=
  match typ.kind with
  | .complex64 | .complex128 | .array | .chan | .func | .interface | .map | .ptr
  | .slice | .unsafePointer => true
  | .struct => typ.str != "time.Time"
  | _ => false

/-- The `switch` inside the uniqueness scan of `Insert`, for one stored row: whether
the stored field matches the new field.  The kind and type are those of the new
record's field (`dataFieldTyp`); `panic` when an accessor panics. -/
def uniqueMatch (dataFieldTyp : FieldType) (tableFieldValue dataFieldValue : Value) :
    Outcome Bool :=
  match dataFieldTyp.kind with
  | .bool =>
    match tableFieldValue.getBool, dataFieldValue.getBool with
    | some a, some b => .ok (a == b)
    | _, _ => .panic
  | .int | .int8 | .int16 | .int32 | .int64 =>
    match tableFieldValue.getInt, dataFieldValue.getInt with
    | some a, some b => .ok (a == b)
    | _, _ => .panic
  | .uint | .uint8 | .uint16 | .uint32 | .uint64 | .uintptr =>
    match tableFieldValue.getUint, dataFieldValue.getUint with
    | some a, some b => .ok (a == b)
    | _, _ => .panic
  | .float32 | .float64 =>
    match tableFieldValue.getFloat, dataFieldValue.getFloat with
    | some a, some b => .ok (floatEq a b)
    | _, _ => .panic
  | .string => .ok (tableFieldValue.getString == dataFieldValue.getString)
  | .struct =>
    if dataFieldTyp.str = "time.Time" then
      match tableFieldValue.getTime, dataFieldValue.getTime with
      | some dfTime, some fTime => .ok (dfTime == fTime)
      | _, _ => .panic
    else .ok false
  | _ => .ok false

/-- The inner loop of `Insert` over the stored rows, for field `i` of the new record:
`ok true` when a stored row matches (the uniqueness error is returned), `ok false`
when the loop ends without a match. -/
def uniqueScan (i : Nat) (dataFieldTyp : FieldType) (dataFieldValue : Value) :
    List GoValue → Outcome Bool
  | [] => .ok false
  | tableRow :: rest =>
    match tableRow.Field i with
    | none => .panic
    | some tableFieldValue =>
      match uniqueMatch dataFieldTyp tableFieldValue dataFieldValue with
      | .ok false => uniqueScan i dataFieldTyp dataFieldValue rest
      | r => r

/-- The outer loop of `Insert` over the fields `i, i+1, ...` of the new record's
type; `ok ()` when the loop ends and the record is to be appended. -/
def StructTable.insertLoop (st : StructTable) (data : GoValue) :
    Nat → List StructField → Outcome Unit
  | _, [] => .ok ()
  | i, dataFieldTyp :: rest =>
    match st.columnExist dataFieldTyp.Name with
    | .panic => .panic
    | .fatal => .fatal
    | .error _ => st.insertLoop data (i + 1) rest
    | .ok _ =>
      if insertSkips dataFieldTyp.Typ then st.insertLoop data (i + 1) rest
      else
        match data.Field i with
        | none => .panic
        | some dataFieldValue =>
          if Contains st.Uniques dataFieldTyp.Name then
            match uniqueScan i dataFieldTyp.Typ dataFieldValue st.dataSet with
            | .ok false => st.insertLoop data (i + 1) rest
            | .ok true =>
              .error (Errorf ErrUniqueConstraintViolation (" :  " ++ dataFieldTyp.Name))
            | .error e => .error e
            | .panic => .panic
            | .fatal => .fatal
          else st.insertLoop data (i + 1) rest

/-- The method `Insert`: the table after the call and how the call ended. -/
def StructTable.Insert (st : StructTable) (data : GoValue) : StructTable × Outcome Unit :=
  match data.typ with
  | none => (st, .panic)
  | some dataType =>
    if dataType.Kind ≠ Kind.struct then (st, .error ErrCanNotInsertNoStructType)
    else if dataType.Str ≠ st.MetaType.Str then (st, .error ErrIncompatibleStruct)
    else
      match dataType.Fields with
      | none => (st, .panic)
      | some fields =>
        match st.insertLoop data 0 fields with
        | .ok _ => ({ st with dataSet := st.dataSet ++ [data] }, .ok ())
        | r => (st, r)

/-- A Go `map[string]interface{}` as the list of its entries. -/
abbrev GoMap := List (String × FieldValue)

/-- The assignment `m[k] = v`. -/
def GoMap.set (m : GoMap) (k : String) (v : FieldValue) : GoMap :=
  if m.any (fun p => p.1 == k) then m.map (fun p => if p.1 == k then (k, v) else p)
  else m ++ [(k, v)]

/-- The loop of `ToMap` over the fields `i, i+1, ...`; `none` is a panic. -/
def toMapLoop (strck : GoValue) : Nat → List StructField → GoMap → Option GoMap
  | _, [], ret => some ret
  | i, typeField :: rest, ret =>
    match headByte typeField.Name with
    | none => none
    | some head =>
      if head < 65 ∨ head > 90 ∨ GetBaseKindOfType typeField.Typ = BaseKindOther then
        toMapLoop strck (i + 1) rest ret
      else
        match strck.Field i with
        | none => none
        | some valueField =>
          match GetBaseKindOfType typeField.Typ with
          | BaseKindInt =>
            (valueField.getInt).bind fun x =>
              toMapLoop strck (i + 1) rest (GoMap.set ret typeField.Name (.int x))
          | BaseKindUint =>
            (valueField.getUint).bind fun x =>
              toMapLoop strck (i + 1) rest (GoMap.set ret typeField.Name (.uint x))
          | BaseKindFloat =>
            (valueField.getFloat).bind fun x =>
              toMapLoop strck (i + 1) rest (GoMap.set ret typeField.Name (.float x))
          | BaseKindBool =>
            (valueField.getBool).bind fun x =>
              toMapLoop strck (i + 1) rest (GoMap.set ret typeField.Name (.bool x))
          | BaseKindString =>
            toMapLoop strck (i + 1) rest
              (GoMap.set ret typeField.Name (.string valueField.getString))
          | BaseKindTime =>
            (valueField.getTime).bind fun x =>
              toMapLoop strck (i + 1) rest (GoMap.set ret typeField.Name (.time x))
          | BaseKindOther => toMapLoop strck (i + 1) rest ret

/-- The function `ToMap`; `none` is a panic (nil or non-struct argument, or a
faulting field access). -/
def ToMap (strck : GoValue) : Option GoMap :=
  match strck.typ with
  | none => none
  | some sType =>
    match sType.Fields with
    | none => none
    | some fields => toMapLoop strck 0 fields []

/-- The expression-language types `decls.Double`, `decls.Bool`, ... -/
inductive CelType where
  | double | bool | uint | int | string | timestamp
  deriving DecidableEq, Repr

/-- A variable declaration `decls.NewVar(name, typ)`; `typ` is `none` when the
`switch` of `filter` assigned no type. -/
structure Decl where
  name : String
  typ : Option CelType
  deriving DecidableEq, Repr

/-- The Go value `result.Value()` of an evaluation: a `bool` or a value of another
kind. -/
inductive CelValue where
  | bool (b : Bool)
  | other (id : Nat)
  deriving DecidableEq, Repr

/-- The expression engine cel-go, external to the repository, as `filter` uses it:
`NewEnv` gives the error of `cel.NewEnv` if any; `Compile` says whether
`issues != nil && issues.Err() != nil`; `Program` gives the error of `env.Program`
if any; `Eval` is `prg.Eval` on one projected row. -/
structure Cel where
  NewEnv : List Decl → Option Err
  Compile : List Decl → String → Bool
  Program : List Decl → String → Option Err
  Eval : List Decl → String → GoMap → Except Err CelValue

/-- The first loop of `filter`: the names of the fields to declare; `none` is the
index panic on an empty field name. -/
def filterFieldNames : List StructField → Option (List String)
  | [] => some []
  | rowFieldType :: rest =>
    match headByte rowFieldType.Name with
    | none => none
    | some head =>
      if head < 65 ∨ head > 90 then filterFieldNames rest
      else
        let add : Bool :=
          match rowFieldType.Typ.kind with
          | .int | .string | .int64 | .int32 | .int16 | .int8 | .uint | .uint8 | .uint16
          | .uint32 | .uint64 | .float64 | .float32 | .bool => true
          | .struct => rowFieldType.Typ.str == "time.Time"
          | _ => false
        (filterFieldNames rest).map fun names =>
          if add then rowFieldType.Name :: names else names

/-- The second loop of `filter`: one declaration per collected name; `none` is the
panic when the name is not a field of the type. -/
def filterDeclarations (metaType : GoType) : List String → Option (List Decl)
  | [] => some []
  | name :: rest =>
    match metaType.FieldByName name with
    | some (some rFieldValue) =>
      let typ : Option CelType :=
        match GetBaseKindOfType rFieldValue.Typ with
        | BaseKindFloat => some .double
        | BaseKindBool => some .bool
        | BaseKindUint => some .uint
        | BaseKindInt => some .int
        | BaseKindString => some .string
        | BaseKindTime => some .timestamp
        | BaseKindOther => none
      (filterDeclarations metaType rest).map fun ds => ⟨name, typ⟩ :: ds
    | _ => none

/-- The evaluation loop of `filter` over the rows `index, index+1, ...`, with the
positions `ret` collected so far. -/
def filterRows (cel : Cel) (declarations : List Decl) (whereExpr : String) :
    Nat → List GoValue → List Nat → Outcome (List Nat)
  | _, [], ret => .ok ret
  | index, row :: rest, ret =>
    match ToMap row with
    | none => .panic
    | some m =>
      match cel.Eval declarations whereExpr m with
      | .error err => .error err
      | .ok (.other _) =>
        .error (Errorf ErrEvaluationError
          (" : expression do not yield boolean result [" ++ whereExpr ++ "]"))
      | .ok (.bool b) =>
        filterRows cel declarations whereExpr (index + 1) rest
          (if b then ret ++ [index] else ret)

/-- The two first loops of `filter`: the declarations of the expression
environment; `none` is a panic. -/
def StructTable.declarations (st : StructTable) : Option (List Decl) :=
  match st.MetaType.Fields with
  | none => none
  | some fields =>
    match filterFieldNames fields with
    | none => none
    | some fieldNames => filterDeclarations st.MetaType fieldNames

/-- The method `filter`. -/
def StructTable.filter (cel : Cel) (st : StructTable) (whereExpr : String) :
    Outcome (List Nat) :=
  match st.declarations with
  | none => .panic
  | some declarations =>
    match cel.NewEnv declarations with
    | some err => .error err
    | none =>
      if cel.Compile declarations whereExpr then .fatal
      else
        match cel.Program declarations whereExpr with
        | some _ => .fatal
        | none => filterRows cel declarations whereExpr 0 st.dataSet []

/-- The types `Ordering` and `Order`. -/
inductive Ordering where
  | OrderASC | OrderDESC
  deriving DecidableEq, Repr

structure Order where
  Key : String
  Ordering : Ordering
  deriving DecidableEq, Repr

/-- The struct `KeyValue`. -/
structure KeyValue where
  Key : String
  Value : FieldValue
  deriving DecidableEq, Repr

/-- The loop of `Select` that translates positions to rows; `none` is the index
panic. -/
def selectRows (dataSet : List GoValue) : List Nat → List GoValue → Option (List GoValue)
  | [], ret => some ret
  | idx :: rest, ret =>
    match dataSet[idx]? with
    | none => none
    | some row => selectRows dataSet rest (ret ++ [row])

/-- The method `Select`. -/
def StructTable.Select (cel : Cel) (st : StructTable) (whereExpr : String)
    (orderBy : List Order) (offset len : Int) : Outcome (List GoValue) :=
  match st.filter cel whereExpr with
  | .error err => .error err
  | .panic => .panic
  | .fatal => .fatal
  | .ok recIdxs =>
    match selectRows st.dataSet recIdxs [] with
    | none => .panic
    | some ret => .ok ret

/-- The method `Update`: the table after the call and the returned pair. -/
def StructTable.Update (st : StructTable) (set : List KeyValue) (whereExpr : String) :
    StructTable × Outcome Nat :=
  (st, .ok 0)

/-- The method `Delete`: the table after the call and the returned pair. -/
def StructTable.Delete (st : StructTable) (whereExpr : String) : StructTable × Outcome Nat :=
  (st, .ok 0)

/-! ## Vocabulary of the specification -/

/-- Go's typing of a field: the content of a field agrees with the field's type. -/
def FieldValue.hasType (v : FieldValue) (t : FieldType) : Bool :=
  match GetBaseKindOfType t, v with
  | BaseKindBool, .bool _ => true
  | BaseKindInt, .int _ => true
  | BaseKindUint, .uint _ => true
  | BaseKindFloat, .float _ => true
  | BaseKindString, .string _ => true
  | BaseKindTime, .time _ => true
  | BaseKindOther, .other _ => true
  | _, _ => false

/-- Go's typing of a struct value: one well-typed content per declared field. -/
def valsTyped : List FieldValue → List StructField → Bool
  | [], [] => true
  | v :: vs, f :: fs => v.hasType f.Typ && valsTyped vs fs
  | _, _ => false

/-- A record of the struct type with the given `String()` and fields. -/
def IsRecord (name : String) (fields : List StructField) (v : GoValue) : Prop :=
  v.typ = some (.struct name fields) ∧ valsTyped v.vals fields = true

/-- A table of the data model: its record type is the struct type `name`/`fields`,
every declared unique column passed the check of construction, and every stored row
is a record of the record type. -/
structure StructTable.WellFormed (st : StructTable) (name : String)
    (fields : List StructField) : Prop where
  metaType : st.MetaType = .struct name fields
  uniques : ∀ u ∈ st.Uniques, st.columnExist u = .ok ()
  rows : ∀ r ∈ st.dataSet, IsRecord name fields r

/-- The equality rule of the kinds: Go's `==` on two field contents of the same
supported kind (never true on contents of an unsupported kind). -/
def FieldValue.goEq : FieldValue → FieldValue → Bool
  | .bool a, .bool b => a == b
  | .int a, .int b => a == b
  | .uint a, .uint b => a == b
  | .float a, .float b => floatEq a b
  | .string a, .string b => a == b
  | .time a, .time b => a == b
  | _, _ => false

/-- Two values have the same value in field `i` (under the kind's equality rule). -/
def GoValue.sameOn (a b : GoValue) (i : Nat) : Bool :=
  match a.vals[i]?, b.vals[i]? with
  | some x, some y => x.goEq y
  | _, _ => false

/-- A field is a column of supported kind. -/
def StructField.supported (f : StructField) : Prop :=
  GetBaseKindOfType f.Typ ≠ BaseKindOther

/-- The content of the first field called `col`. -/
def columnOf : List StructField → List FieldValue → String → Option FieldValue
  | f :: fs, v :: vs, col => if f.Name = col then some v else columnOf fs vs col
  | _, _, _ => none

/-- The value of a struct value in its field called `col`, if it has one. -/
def GoValue.column (v : GoValue) (col : String) : Option FieldValue :=
  match v.typ with
  | some (.struct _ fs) => columnOf fs v.vals col
  | _ => none

/-- A call of one of the operations of a table. -/
inductive Call where
  | Insert (data : GoValue)
  | Select (whereExpr : String) (orderBy : List Order) (offset len : Int)
  | Count
  | Update (set : List KeyValue) (whereExpr : String)
  | Delete (whereExpr : String)

/-- The table after one call.  `Select` and `Count` assign nothing. -/
def StructTable.call (st : StructTable) : Call → StructTable
  | .Insert data => (st.Insert data).1
  | .Select _ _ _ _ => st
  | .Count => st
  | .Update set whereExpr => (st.Update set whereExpr).1
  | .Delete whereExpr => (st.Delete whereExpr).1

/-- The table after a sequence of calls. -/
def StructTable.run (st : StructTable) : List Call → StructTable
  | [] => st
  | c :: rest => (st.call c).run rest

/-- The number of `Insert` calls of a sequence that return no error. -/
def StructTable.inserted (st : StructTable) : List Call → Nat
  | [] => 0
  | .Insert data :: rest =>
    (if (st.Insert data).2 = .ok () then 1 else 0) + ((st.Insert data).1).inserted rest
  | c :: rest => (st.call c).inserted rest

/-- The outcomes of inserting the records of a list one after the other, and the
table after the last one. -/
def StructTable.insertAll (st : StructTable) : List GoValue → StructTable × List (Outcome Unit)
  | [] => (st, [])
  | data :: rest =>
    let r := st.Insert data
    let q := r.1.insertAll rest
    (q.1, r.2 :: q.2)

instance (f : StructField) : Decidable f.supported := by
  unfold StructField.supported
  infer_instance

/-! ## Example data -/

/-- An exported integer field `A`. -/
def fieldA : StructField := { Name := "A", Typ := ⟨.int, "int"⟩ }

/-- An exported integer field `B`. -/
def fieldB : StructField := { Name := "B", Typ := ⟨.int, "int"⟩ }

/-- The struct type `demo.Pair` with the fields `A` and `B`. -/
def pairType : GoType := .struct "demo.Pair" [fieldA, fieldB]

/-- The record `demo.Pair{A: a, B: b}`. -/
def pair (a b : Int) : GoValue := ⟨some pairType, [.int a, .int b]⟩

/-- A table of `demo.Pair` with both columns unique, holding `{1, 10}` and `{2, 20}`. -/
def pairTable : StructTable :=
  { MetaType := pairType, Uniques := ["A", "B"], dataSet := [pair 1 10, pair 2 20] }

/-- An exported string field `X`. -/
def fieldX : StructField := { Name := "X", Typ := ⟨.string, "string"⟩ }

/-- An exported string field `W`. -/
def fieldW : StructField := { Name := "W", Typ := ⟨.string, "string"⟩ }

/-- An exported string field `Z`. -/
def fieldZ : StructField := { Name := "Z", Typ := ⟨.string, "string"⟩ }

/-- The struct type `demo.T` with the string fields `X` and `W`. -/
def typeT : GoType := .struct "demo.T" [fieldX, fieldW]

/-- Another struct type whose `String()` is also `demo.T` (a type `T` of another
package called `demo`), with the string fields `Z` and `X`. -/
def typeT2 : GoType := .struct "demo.T" [fieldZ, fieldX]

/-- The table that `NewStructTable` returns for `typeT` with the column `X` unique. -/
def tableT : StructTable := { MetaType := typeT, Uniques := ["X"], dataSet := [] }

/-- The value `T{X: "a", W: "w"}` of the first type. -/
def valueT : GoValue := ⟨some typeT, [.string "a", .string "w"]⟩

/-- The value `T{Z: "a", X: "a"}` of the second type. -/
def valueT2 : GoValue := ⟨some typeT2, [.string "a", .string "a"]⟩

/-- The value `T{Z: "z", X: "a"}` of the second type. -/
def valueT3 : GoValue := ⟨some typeT2, [.string "z", .string "a"]⟩

/-- The value `T{Z: "a", X: "b"}` of the second type. -/
def valueT4 : GoValue := ⟨some typeT2, [.string "a", .string "b"]⟩

/-- A struct value whose field contents agree with its type (Go's typing). -/
def GoValue.isStruct (v : GoValue) : Prop :=
  ∃ name fields, IsRecord name fields v

/-- An inserted value respects the record type `name`/`fields`: if it is a struct whose
type name is `name`, it is a record of that type (the type name determines the type). -/
def Call.typed (name : String) (fields : List StructField) : Call → Prop
  | .Insert data =>
    ∀ t, data.typ = some t → t.Kind = Kind.struct → t.Str = name → IsRecord name fields data
  | _ => True

/-- No two rows of a list agree on a declared-unique column of supported kind. -/
def UniqueRows (uniques : List String) (fields : List StructField) (rows : List GoValue) :
    Prop :=
  rows.Pairwise fun x y =>
    ∀ i f, fields[i]? = some f → f.Name ∈ uniques → f.supported → x.sameOn y i = false

/-- A table of `demo.Pair` with the column `A` unique and no row. -/
def pairTableA : StructTable := { MetaType := pairType, Uniques := ["A"], dataSet := [] }

/-- A table of `demo.Pair` with both columns unique and no row. -/
def pairTableEmpty : StructTable :=
  { MetaType := pairType, Uniques := ["A", "B"], dataSet := [] }

/-- Every name of the list is the name of a field of the struct type, declared or
promoted from an embedded struct, and starts with a byte in `'A'..'Z'`. -/
def ColumnsVisible (fields : List StructField) (names : List String) : Prop :=
  ∀ k ∈ names, (∃ f ∈ selectableFields fields, f.Name = k) ∧
    ∃ b, headByte k = some b ∧ 65 ≤ b ∧ b ≤ 90

/-- The positions `index, index+1, ...` of the rows that satisfy `p`. -/
def matchingPositions (p : GoValue → Bool) : Nat → List GoValue → List Nat
  | _, [] => []
  | index, row :: rest =>
    if p row then index :: matchingPositions p (index + 1) rest
    else matchingPositions p (index + 1) rest

/-- A row evaluator applied to the projection `ToMap` of a row. -/
def onProjection (ev : GoMap → Bool) (row : GoValue) : Bool :=
  match ToMap row with
  | some m => ev m
  | none => false

/-- An expression engine that accepts every expression and evaluates it with `ev` on
the projected row. -/
def celWith (ev : GoMap → CelValue) : Cel :=
  { NewEnv := fun _ => none
    Compile := fun _ _ => false
    Program := fun _ _ => none
    Eval := fun _ _ m => .ok (ev m) }

/-- The row evaluator "the entry `key` is `target`". -/
def entryIs (key : String) (target : FieldValue) (m : GoMap) : Bool :=
  m.lookup key == some target

/-- The nil interface value. -/
def nilValue : GoValue := ⟨none, []⟩

/-- A value of type `*demo.Pair`. -/
def pairPointer : GoValue := ⟨some (.ptr pairType), []⟩

/-- The struct `DummyStruct` of `StructTable_test.go`. -/
def DummyStruct : GoType :=
  .struct "sqlfly.DummyStruct"
    [{ Name := "VisibleInt", Typ := ⟨.int, "int"⟩ },
     { Name := "VisibleString", Typ := ⟨.string, "string"⟩ },
     { Name := "VisibleBool", Typ := ⟨.bool, "bool"⟩ },
     { Name := "invisibleInt", Typ := ⟨.int, "int"⟩ },
     { Name := "invisibleString", Typ := ⟨.string, "string"⟩ },
     { Name := "invisibleBool", Typ := ⟨.bool, "bool"⟩ },
     { Name := "VisibleTime", Typ := ⟨.struct, "time.Time"⟩ }]

/-- A value of `DummyStruct`, its fields in declaration order. -/
def dummy (vi : Int) (vs : String) (vb : Bool) (ii : Int) (is : String) (ib : Bool)
    (vt : Time) : GoValue :=
  ⟨some DummyStruct, [.int vi, .string vs, .bool vb, .int ii, .string is, .bool ib, .time vt]⟩

/-- The table of `TestStructTable_Insert_Duplicate` before the inserts. -/
def dummyTable : StructTable :=
  { MetaType := DummyStruct, Uniques := ["VisibleString", "VisibleTime"], dataSet := [] }

/-- A reading of the clock, `time.Now()`: an instant with a monotonic reading, in the
local location (pointer 1). -/
def tNow : Time := { instant := 1600000000000000000, mono := some 5000, loc := 1 }

/-! ## StructTable.go: `StructShallowEquals` -/

/-- The `switch` of `StructShallowEquals` for one visible field: `ok true` when the
two field values are equal under the kind's rule or the kind is not compared,
`ok false` when the function returns false; `panic` when an accessor panics.  The kind
and type are those of the first value's field. -/
def shallowFieldEquals (oneFieldValue : FieldType) (oneFieldDataValue twoFieldDataValue : Value) :
    Outcome Bool :=
  match oneFieldValue.kind with
  | .bool =>
    match oneFieldDataValue.getBool, twoFieldDataValue.getBool with
    | some a, some b => .ok (a == b)
    | _, _ => .panic
  | .int | .int8 | .int16 | .int32 | .int64 =>
    match oneFieldDataValue.getInt, twoFieldDataValue.getInt with
    | some a, some b => .ok (a == b)
    | _, _ => .panic
  | .uint | .uint8 | .uint16 | .uint32 | .uint64 | .uintptr =>
    match oneFieldDataValue.getUint, twoFieldDataValue.getUint with
    | some a, some b => .ok (a == b)
    | _, _ => .panic
  | .float32 | .float64 =>
    match oneFieldDataValue.getFloat, twoFieldDataValue.getFloat with
    | some a, some b => .ok (floatEq a b)
    | _, _ => .panic
  | .string => .ok (oneFieldDataValue.getString == twoFieldDataValue.getString)
  | .struct =>
    if oneFieldValue.str = "time.Time" then
      match oneFieldDataValue.getTime, twoFieldDataValue.getTime with
      | some dfTime, some fTime => .ok (dfTime == fTime)
      | _, _ => .panic
    else .ok true
  | _ => .ok true

/-- The loop of `StructShallowEquals` over the fields `i, i+1, ...` of the first
value's type; `twoFields` are the fields of the second value's type. -/
def shallowLoop (one two : GoValue) (twoFields : List StructField) :
    Nat → List StructField → Outcome Bool
  | _, [] => .ok true
  | i, oneFieldValue :: rest =>
    match twoFields[i]? with
    | none => .panic
    | some twoFieldValue =>
      if oneFieldValue.Name ≠ twoFieldValue.Name then .ok false
      else if oneFieldValue.Typ.kind ≠ twoFieldValue.Typ.kind then .ok false
      else
        match headByte oneFieldValue.Name with
        | none => .panic
        | some head =>
          if head < 65 ∨ head > 90 then shallowLoop one two twoFields (i + 1) rest
          else
            match one.Field i, two.Field i with
            | some oneFieldDataValue, some twoFieldDataValue =>
              match shallowFieldEquals oneFieldValue.Typ oneFieldDataValue twoFieldDataValue with
              | .ok true => shallowLoop one two twoFields (i + 1) rest
              | r => r
            | _, _ => .panic

/-- The function `StructShallowEquals`.  The guard tests the kind of the first value
twice (as the source does) and never the kind of the second. -/
def StructShallowEquals (one two : GoValue) : Outcome Bool :=
  match one.typ with
  | none => .panic
  | some oneType =>
    if oneType.Kind ≠ Kind.struct ∨ oneType.Kind ≠ Kind.struct then .ok false
    else
      match two.typ with
      | none => .panic
      | some twoType =>
        if oneType.Str ≠ twoType.Str then .ok false
        else
          match oneType.Fields, twoType.Fields with
          | some oneFields, some twoFields =>
            if oneFields.length ≠ twoFields.length then .ok false
            else shallowLoop one two twoFields 0 oneFields
          | _, _ => .panic

/-- A field is visible: the first byte of its name is in `'A'..'Z'`. -/
def StructField.visible (f : StructField) : Prop :=
  ∃ b, headByte f.Name = some b ∧ 65 ≤ b ∧ b ≤ 90

/-- The type after resolving one level of pointer, as `NewStructTable` does. -/
def GoType.resolved : GoType → GoType
  | .ptr e => e
  | t => t

/-- An expression engine that rejects every expression at compilation. -/
def celRejecting : Cel :=
  { NewEnv := fun _ => none
    Compile := fun _ _ => true
    Program := fun _ _ => none
    Eval := fun _ _ _ => .ok (.bool true) }

/-- An expression engine that accepts every expression and whose evaluation fails
exactly on the rows whose entry `key` is `target`, and is true elsewhere. -/
def celFailingOn (key : String) (target : FieldValue) : Cel :=
  { NewEnv := fun _ => none
    Compile := fun _ _ => false
    Program := fun _ _ => none
    Eval := fun _ _ m =>
      if entryIs key target m then .error (.New "no such overload") else .ok (.bool true) }

instance (f : StructField) : Decidable f.visible := by
  unfold StructField.visible
  cases h : headByte f.Name with
  | none => exact isFalse (by simp)
  | some b =>
    by_cases hb : 65 ≤ b ∧ b ≤ 90
    · exact isTrue ⟨b, rfl, hb.1, hb.2⟩
    · exact isFalse (by
        rintro ⟨c, hc, h1, h2⟩
        simp only [Option.some.injEq] at hc
        subst hc
        exact hb ⟨h1, h2⟩)

/-- A string field `X` whose type is the named string type `demo.Name`. -/
def fieldXNamed : StructField := { Name := "X", Typ := ⟨.string, "demo.Name"⟩ }

/-- The struct type `demo.U` with the field `X string`. -/
def typeU : GoType := .struct "demo.U" [fieldX]

/-- Another struct type whose `String()` is `demo.U`, with the field `X demo.Name`. -/
def typeU2 : GoType := .struct "demo.U" [fieldXNamed]

/-- The value `U{X: "a"}` of the first type. -/
def valueU : GoValue := ⟨some typeU, [.string "a"]⟩

/-- The value `U{X: "a"}` of the second type. -/
def valueU2 : GoValue := ⟨some typeU2, [.string "a"]⟩

/-- The struct type `demo.V` with a visible integer field `A`, an unexported integer
field `b` and a visible field `P` of pointer type. -/
def typeV : GoType :=
  .struct "demo.V"
    [{ Name := "A", Typ := ⟨.int, "int"⟩ }, { Name := "b", Typ := ⟨.int, "int"⟩ },
     { Name := "P", Typ := ⟨.ptr, "*int"⟩ }]

/-- The value `V{A: a, b: b, P: p}`, the pointer given by a number. -/
def valueV (a b : Int) (p : Nat) : GoValue := ⟨some typeV, [.int a, .int b, .other p]⟩

/-- The instant of `tNow` as a value without monotonic reading in the location UTC
(nil pointer), as `tNow.UTC().Round(0)` gives it: `tNow.Equal` holds of it. -/
def tNowUTC : Time := { instant := 1600000000000000000, mono := none, loc := 0 }

/-- An exported timestamp field `T`. -/
def fieldT : StructField := { Name := "T", Typ := ⟨.struct, "time.Time"⟩ }

/-- The struct type `demo.E` with the timestamp field `T`. -/
def typeE : GoType := .struct "demo.E" [fieldT]

/-- The value `E{T: t}`. -/
def valueE (t : Time) : GoValue := ⟨some typeE, [.time t]⟩

/-- A table of `demo.E` with the column `T` unique, holding `E{T: tNow}`. -/
def tableE : StructTable := { MetaType := typeE, Uniques := ["T"], dataSet := [valueE tNow] }

/-! ## StructTable_test.go: `GetSpell` and the scenario of `TestStructTable_Select` -/

/-- The table `Spell` of `GetSpell`. -/
def Spell : List String :=
  ["zero", "one", "two", "three", "four", "five", "six", "seven", "eight", "nine"]

/-- The loop of `GetSpell` over the bytes of the decimal text; `none` is the index
panic on a byte that is not a digit. -/
def spellBytes : List Char → Option String
  | [] => some ""
  | c :: rest =>
    match Spell[c.toNat - 48]?, spellBytes rest with
    | some w, some tail => some (w ++ tail)
    | _, _ => none

/-- The function `GetSpell`: the digit-by-digit spelling of `strconv.Itoa(i)`; `none` is
the index panic, which a negative `i` meets at its sign. -/
def GetSpell (i : Int) : Option String :=
  if i < 0 then none else spellBytes (Nat.toDigits 10 i.toNat)

/-- Whether a list of characters has the list `sub` as a contiguous part. -/
def containsSub (sub : List Char) : List Char → Bool
  | [] => sub.isEmpty
  | c :: rest => sub.isPrefixOf (c :: rest) || containsSub sub rest

/-- Modelled from the spec: the external expression engine on the expression
`key.contains(sub)` ("string predicates such as substring containment"): it accepts
the expression and evaluates it to whether the string entry `key` of the projected row
contains `sub`; the evaluation fails when the row has no string entry `key`. -/
def celContains (key sub : String) : Cel :=
  { NewEnv := fun _ => none
    Compile := fun _ _ => false
    Program := fun _ _ => none
    Eval := fun _ _ m =>
      match m.lookup key with
      | some (.string s) => .ok (.bool (containsSub sub.data s.data))
      | _ => .error (.New "no such attribute") }

/-- The reading of the clock at the `i`-th turn of the loop of the test. -/
def clockAt (i : Nat) : Time := { instant := 1600000000000000000 + i, mono := some i, loc := 1 }

/-- The record that the `i`-th turn of the loop of `TestStructTable_Select` inserts. -/
def spelled (i : Nat) : GoValue :=
  dummy i ((GetSpell i).getD "") false (i + 100) ((GetSpell (i + 100)).getD "") false
    (clockAt i)

/-- The table of `TestStructTable_Select` before the loop. -/
def spellTable0 : StructTable :=
  { MetaType := DummyStruct, Uniques := ["VisibleString"], dataSet := [] }

/-- The table of `TestStructTable_Select` after the loop, and the outcomes of the 100
inserts. -/
def spellRun : StructTable × List (Outcome Unit) :=
  spellTable0.insertAll ((List.range 100).map spelled)

/-- The positions of the scenario: the numbers below 100 with a decimal digit 2. -/
def twoPositions : List Nat :=
  [2, 12, 20, 21, 22, 23, 24, 25, 26, 27, 28, 29, 32, 42, 52, 62, 72, 82, 92]

/-- The expression of `TestStructTable_Select`. -/
def spellWhere : String := "VisibleString.contains(\"two\")"

/-- The result of the `Select` of `TestStructTable_Select`. -/
def spellSelect : Outcome (List GoValue) :=
  spellRun.1.Select (celContains "VisibleString" "two") spellWhere [] 0 0

/-- The projection of a record as the specification words it: one entry per visible
field of supported kind, in declaration order, the key being the field name and the
value the field's value. -/
def projectVisible : List StructField → List FieldValue → GoMap
  | f :: fs, x :: xs =>
    if f.visible ∧ f.supported then (f.Name, x) :: projectVisible fs xs
    else projectVisible fs xs
  | _, _ => []

/-- The names of the visible fields of supported kind, in declaration order. -/
def visibleSupportedNames (fields : List StructField) : List String :=
  (fields.filter fun f => decide (f.visible ∧ f.supported)).map fun f => f.Name

/-- The struct type `demo.P` with a visible field `N` of kind uintptr and a visible
string field `S`. -/
def typeP : GoType :=
  .struct "demo.P"
    [{ Name := "N", Typ := ⟨.uintptr, "uintptr"⟩ }, { Name := "S", Typ := ⟨.string, "string"⟩ }]

/-- The value `P{N: 7, S: "a"}`. -/
def valueP : GoValue := ⟨some typeP, [.uint 7, .string "a"]⟩

/-- The names that `filter` declares, as its first loop selects them: the visible
fields of supported kind whose kind is not uintptr, in declaration order. -/
def declaredNames (fields : List StructField) : List String :=
  (fields.filter fun f =>
    decide (f.visible ∧ f.supported ∧ f.Typ.kind ≠ Kind.uintptr)).map fun f => f.Name

/-- A struct value whose type name is `tname`. -/
def GoValue.namedStruct (v : GoValue) (tname : String) : Prop :=
  ∃ t, v.typ = some t ∧ t.Kind = Kind.struct ∧ t.Str = tname

/-- For the value `v` the type name determines the field list: if `v` is a struct whose
type name is `name`, it is a record of the type `name`/`fields`. -/
def NameDetermines (name : String) (fields : List StructField) (v : GoValue) : Prop :=
  ∀ t, v.typ = some t → t.Kind = Kind.struct → t.Str = name → IsRecord name fields v

/-- A third struct type whose `String()` is `demo.T`, with the single field `X`. -/
def typeT1 : GoType := .struct "demo.T" [fieldX]

/-- The value `T{X: "a"}` of the third type. -/
def valueT1 : GoValue := ⟨some typeT1, [.string "a"]⟩

/-- The table that `NewStructTable` returns for `typeT` with the column `W` unique. -/
def tableTW : StructTable := { MetaType := typeT, Uniques := ["W"], dataSet := [] }

/-- The embedded field `Inner` of type `demo.Inner`, a struct with the integer field
`X`, which the enclosing type has by promotion. -/
def fieldInner : StructField :=
  { Name := "Inner", Typ := ⟨.struct, "demo.Inner"⟩,
    Promoted := [{ Name := "X", Typ := ⟨.int, "int"⟩ }] }

/-- An exported integer field `Y`. -/
def fieldY : StructField := { Name := "Y", Typ := ⟨.int, "int"⟩ }

/-- The struct type `demo.Outer`, declared as `struct { Inner; Y int }`. -/
def typeOuter : GoType := .struct "demo.Outer" [fieldInner, fieldY]

/-- The value `Outer{Inner: inner, Y: y}`, the embedded value given by a number (equal
numbers are equal values of `Inner`, hence equal `X`). -/
def outer (inner : Nat) (y : Int) : GoValue := ⟨some typeOuter, [.other inner, .int y]⟩

/-- The table that `NewStructTable` returns for `demo.Outer` with the promoted column
`X` unique. -/
def tableOuter : StructTable := { MetaType := typeOuter, Uniques := ["X"], dataSet := [] }

/-- An exported floating-point field `F`. -/
def fieldF : StructField := { Name := "F", Typ := ⟨.float64, "float64"⟩ }

/-- The struct type `demo.F` with the field `F float64`. -/
def typeF : GoType := .struct "demo.F" [fieldF]

/-- The bit pattern of a NaN (`math.NaN()`). -/
def nanBits : Nat := 0x7FF8000000000001

/-- The value `F{F: math.NaN()}`. -/
def valueNaN : GoValue := ⟨some typeF, [.float nanBits]⟩

/-- A table of `demo.F` with the column `F` unique, holding `F{F: math.NaN()}`. -/
def tableF : StructTable := { MetaType := typeF, Uniques := ["F"], dataSet := [valueNaN] }

/-! ## Lemmas on the field accessors and the uniqueness scan -/

theorem uniqueMatch_typed (t : FieldType) (x y : FieldValue)
    (hx : x.hasType t = true) (hy : y.hasType t = true) :
    uniqueMatch t ⟨t, x⟩ ⟨t, y⟩ = .ok (x.goEq y) := by
  obtain ⟨k, str⟩ := t
  by_cases hs : str = "time.Time" <;> cases x <;> cases y <;> cases k <;>
    simp [FieldValue.hasType, GetBaseKindOfType, hs] at hx hy <;>
    simp [uniqueMatch, FieldValue.goEq, Value.getBool, Value.getInt, Value.getUint,
      Value.getFloat, Value.getString, Value.getTime, Kind.isInt, Kind.isUint, Kind.isFloat,
      hs]

theorem valsTyped_get (vs : List FieldValue) (fs : List StructField)
    (h : valsTyped vs fs = true) (i : Nat) (f : StructField) (hf : fs[i]? = some f) :
    ∃ x, vs[i]? = some x ∧ x.hasType f.Typ = true := by
  induction vs generalizing fs i with
  | nil =>
    cases fs with
    | nil => simp at hf
    | cons g gs => simp [valsTyped] at h
  | cons v vs ih =>
    cases fs with
    | nil => simp [valsTyped] at h
    | cons g gs =>
      simp [valsTyped] at h
      cases i with
      | zero =>
        simp at hf
        subst hf
        exact ⟨v, by simp, h.1⟩
      | succ j =>
        simp only [List.getElem?_cons_succ] at hf
        obtain ⟨x, hx, hxt⟩ := ih gs h.2 j hf
        exact ⟨x, by simpa using hx, hxt⟩

theorem record_field (name : String) (fields : List StructField) (v : GoValue)
    (hv : IsRecord name fields v) (i : Nat) (f : StructField) (hf : fields[i]? = some f) :
    ∃ x, v.vals[i]? = some x ∧ x.hasType f.Typ = true ∧ v.Field i = some ⟨f.Typ, x⟩ := by
  obtain ⟨x, hx, hxt⟩ := valsTyped_get v.vals fields hv.2 i f hf
  refine ⟨x, hx, hxt, ?_⟩
  simp [GoValue.Field, hv.1, hf, hx]

theorem uniqueScan_typed (name : String) (fields : List StructField) (data : GoValue)
    (i : Nat) (f : StructField) (hf : fields[i]? = some f) (y : FieldValue)
    (hy : data.vals[i]? = some y) (hyt : y.hasType f.Typ = true)
    (rows : List GoValue) (hrows : ∀ r ∈ rows, IsRecord name fields r) :
    uniqueScan i f.Typ ⟨f.Typ, y⟩ rows = .ok (rows.any (fun r => r.sameOn data i)) := by
  induction rows with
  | nil => simp [uniqueScan]
  | cons r rest ih =>
    obtain ⟨x, hx, hxt, hfield⟩ := record_field name fields r (hrows r (by simp)) i f hf
    have hrest := ih (fun q hq => hrows q (by simp [hq]))
    have hsame : r.sameOn data i = x.goEq y := by simp [GoValue.sameOn, hx, hy]
    simp only [uniqueScan, hfield, uniqueMatch_typed f.Typ x y hxt hyt, List.any_cons, hsame]
    cases hxy : x.goEq y
    · simpa using hrest
    · simp

theorem Contains_iff (arr : List String) (s : String) : Contains arr s = true ↔ s ∈ arr := by
  induction arr with
  | nil => simp [Contains]
  | cons a rest ih =>
    by_cases h : s = a
    · simp [Contains, h]
    · simp [Contains, h, ih]

theorem insertSkips_other (t : FieldType) (h : insertSkips t = true) :
    GetBaseKindOfType t = BaseKindOther := by
  obtain ⟨k, str⟩ := t
  cases k <;> simp_all [insertSkips, GetBaseKindOfType]

theorem goEq_supported (t : FieldType) (x y : FieldValue) (hx : x.hasType t = true)
    (h : x.goEq y = true) : GetBaseKindOfType t ≠ BaseKindOther := by
  intro hk
  cases x <;> simp [FieldValue.hasType, hk] at hx
  cases y <;> simp [FieldValue.goEq] at h

/-- On a struct type `columnExist` never panics; it succeeds exactly on the names of
declared or promoted fields whose first byte is an upper-case ASCII letter. -/
theorem columnExist_struct (st : StructTable) (name : String) (fields : List StructField)
    (hm : st.MetaType = .struct name fields) (c : String) :
    (st.columnExist c = .ok () ∧
        (∃ f ∈ selectableFields fields, f.Name = c) ∧
          ∃ b, headByte c = some b ∧ 65 ≤ b ∧ b ≤ 90) ∨
    (st.columnExist c = .error ErrColumnNameNotExist ∧
        ¬ ((∃ f ∈ selectableFields fields, f.Name = c) ∧
          ∃ b, headByte c = some b ∧ 65 ≤ b ∧ b ≤ 90)) := by
  unfold StructTable.columnExist
  rw [hm]
  simp only [GoType.FieldByName]
  cases hfind : (selectableFields fields).find? (fun f => f.Name == c) with
  | none =>
    right
    refine ⟨rfl, ?_⟩
    rintro ⟨⟨f, hf, hfc⟩, _⟩
    have := List.find?_eq_none.mp hfind f hf
    simp [hfc] at this
  | some g =>
    have hg := List.find?_some hfind
    have hgm := List.mem_of_find?_eq_some hfind
    simp at hg
    cases hb : headByte c with
    | none =>
      exfalso
      have hne := g.nonempty
      rw [hg] at hne
      unfold headByte at hb
      cases hd : c.data with
      | nil =>
        apply hne
        cases c
        simp_all
      | cons a l =>
        simp only [hd] at hb
        split_ifs at hb
    | some b =>
      by_cases hrange : b ≥ 65 ∧ b ≤ 90
      · left
        simp only [hrange, and_self, ↓reduceIte, true_and]
        exact ⟨⟨g, hgm, hg⟩, b, rfl, hrange.1, hrange.2⟩
      · right
        simp only [hrange, ↓reduceIte, true_and]
        rintro ⟨_, b2, hb2, h1, h2⟩
        simp at hb2
        subst hb2
        exact hrange ⟨h1, h2⟩

/-- The field loop of `Insert` on a table of the data model and a record of its type:
either it ends normally and no stored row matches the record on any declared-unique
column of supported kind, or it returns the uniqueness error naming the first
declared-unique column of supported kind, in field order, on which some stored row
matches the record. -/
theorem insertLoop_spec (st : StructTable) (name : String) (fields : List StructField)
    (data : GoValue) (hst : st.WellFormed name fields) (hdata : IsRecord name fields data) :
    ∀ (fs : List StructField) (k : Nat),
      (∀ m f, fs[m]? = some f → fields[k + m]? = some f) →
      (st.insertLoop data k fs = .ok () ∧
        ∀ m f, fs[m]? = some f → f.Name ∈ st.Uniques → f.supported →
          ∀ r ∈ st.dataSet, r.sameOn data (k + m) = false) ∨
      (∃ m g r, fs[m]? = some g ∧ g.Name ∈ st.Uniques ∧ g.supported ∧ r ∈ st.dataSet ∧
        r.sameOn data (k + m) = true ∧
        st.insertLoop data k fs =
          .error (Errorf ErrUniqueConstraintViolation (" :  " ++ g.Name)) ∧
        ∀ m2 f2, m2 < m → fs[m2]? = some f2 → f2.Name ∈ st.Uniques → f2.supported →
          ∀ q ∈ st.dataSet, q.sameOn data (k + m2) = false) := by
  intro fs
  induction fs with
  | nil =>
    intro k _
    left
    exact ⟨rfl, by simp⟩
  | cons f rest ih =>
    intro k h
    have hf0 : fields[k]? = some f := by simpa using h 0 f (by simp)
    have hshift : ∀ m g, rest[m]? = some g → fields[k + 1 + m]? = some g := by
      intro m g hg
      have := h (m + 1) g (by simpa using hg)
      rwa [show k + (m + 1) = k + 1 + m by omega] at this
    have cont : st.insertLoop data k (f :: rest) = st.insertLoop data (k + 1) rest →
        (f.Name ∈ st.Uniques → f.supported → ∀ r ∈ st.dataSet, r.sameOn data k = false) →
        (st.insertLoop data k (f :: rest) = .ok () ∧
          ∀ m g, (f :: rest)[m]? = some g → g.Name ∈ st.Uniques → g.supported →
            ∀ r ∈ st.dataSet, r.sameOn data (k + m) = false) ∨
        (∃ m g r, (f :: rest)[m]? = some g ∧ g.Name ∈ st.Uniques ∧ g.supported ∧
          r ∈ st.dataSet ∧ r.sameOn data (k + m) = true ∧
          st.insertLoop data k (f :: rest) =
            .error (Errorf ErrUniqueConstraintViolation (" :  " ++ g.Name)) ∧
          ∀ m2 f2, m2 < m → (f :: rest)[m2]? = some f2 → f2.Name ∈ st.Uniques →
            f2.supported → ∀ q ∈ st.dataSet, q.sameOn data (k + m2) = false) := by
      intro heq h0
      rcases ih (k + 1) hshift with
        ⟨hok, hall⟩ | ⟨m, g, r, hg, hu, hs, hr, hsame, herr, hfirst⟩
      · left
        refine ⟨heq.trans hok, ?_⟩
        intro m g hg hu hs r hr
        cases m with
        | zero =>
          simp at hg
          subst hg
          exact h0 hu hs r hr
        | succ j =>
          have := hall j g (by simpa using hg) hu hs r hr
          rwa [show k + 1 + j = k + (j + 1) by omega] at this
      · right
        refine ⟨m + 1, g, r, by simpa using hg, hu, hs, hr, ?_, heq.trans herr, ?_⟩
        · rwa [show k + 1 + m = k + (m + 1) by omega] at hsame
        · intro m2 f2 hlt hf2 hu2 hs2 q hq
          cases m2 with
          | zero =>
            simp at hf2
            subst hf2
            exact h0 hu2 hs2 q hq
          | succ j =>
            have := hfirst j f2 (by omega) (by simpa using hf2) hu2 hs2 q hq
            rwa [show k + 1 + j = k + (j + 1) by omega] at this
    rcases columnExist_struct st name fields hst.metaType f.Name with ⟨hce, _⟩ | ⟨hce, _⟩
    · by_cases hskip : insertSkips f.Typ = true
      · apply cont
        · simp [StructTable.insertLoop, hce, hskip]
        · intro _ hs
          exact absurd (insertSkips_other f.Typ hskip) hs
      · obtain ⟨y, hy, hyt, hfield⟩ := record_field name fields data hdata k f hf0
        by_cases hc : Contains st.Uniques f.Name = true
        · have hscan := uniqueScan_typed name fields data k f hf0 y hy hyt st.dataSet hst.rows
          cases hany : st.dataSet.any (fun r => r.sameOn data k) with
          | false =>
            rw [hany] at hscan
            apply cont
            · simp [StructTable.insertLoop, hce, hskip, hfield, hc, hscan]
            · intro _ _ r hr
              have := List.any_eq_false.mp hany r hr
              simpa using this
          | true =>
            rw [hany] at hscan
            right
            obtain ⟨r, hr, hsame⟩ := List.any_eq_true.mp hany
            refine ⟨0, f, r, by simp, (Contains_iff _ _).mp hc, ?_, hr, by simpa using hsame,
              ?_, ?_⟩
            · obtain ⟨x, hx, hxt, _⟩ := record_field name fields r (hst.rows r hr) k f hf0
              have hxy : x.goEq y = true := by simpa [GoValue.sameOn, hx, hy] using hsame
              exact goEq_supported f.Typ x y hxt hxy
            · simp [StructTable.insertLoop, hce, hskip, hfield, hc, hscan]
            · intro m2 _ hlt
              omega
        · apply cont
          · simp [StructTable.insertLoop, hce, hskip, hfield, hc]
          · intro hu
            exact absurd ((Contains_iff _ _).mpr hu) hc
    · apply cont
      · simp [StructTable.insertLoop, hce]
      · intro hu
        rw [hst.uniques f.Name hu] at hce
        cases hce

/-- The call `Insert` on a table of the data model and a record of its type reduces to
the field loop. -/
theorem Insert_record (st : StructTable) (name : String) (fields : List StructField)
    (data : GoValue) (hst : st.WellFormed name fields) (hdata : IsRecord name fields data) :
    st.Insert data =
      match st.insertLoop data 0 fields with
      | .ok _ => ({ st with dataSet := st.dataSet ++ [data] }, .ok ())
      | r => (st, r) := by
  simp [StructTable.Insert, hdata.1, hst.metaType, GoType.Kind, GoType.Str, GoType.Fields]

theorem Err.self_mem_chain (e : Err) : e ∈ e.chain := by
  cases e <;> simp [Err.chain]

theorem Errorf_Is (e : Err) (rest : String) : (Errorf e rest).Is e = true := by
  simp [Err.Is, Errorf, Err.chain, Err.self_mem_chain]

theorem pairTable_wellFormed : pairTable.WellFormed "demo.Pair" [fieldA, fieldB] where
  metaType := rfl
  uniques := by decide
  rows := by
    intro r hr
    simp [pairTable] at hr
    rcases hr with rfl | rfl <;> exact ⟨rfl, by decide⟩

/-! ## The tests of the repository, on the embedding -/

/-- The four calls of `TestNewStructTable`. -/
theorem test_NewStructTable :
    NewStructTable (.ptr DummyStruct) ["VisibleBool"] = .ok ⟨DummyStruct, ["VisibleBool"], []⟩ ∧
    NewStructTable (.ptr DummyStruct) ["invisibleString"] =
      .error ErrUniquesColumnNameNotExist ∧
    NewStructTable (.ptr DummyStruct) ["Visible"] = .error ErrUniquesColumnNameNotExist ∧
    NewStructTable (.ptr DummyStruct) [] = .ok ⟨DummyStruct, [], []⟩ := by
  decide

/-- The calls of `TestColumnExist`. -/
theorem test_ColumnExist :
    NewStructTable DummyStruct ["VisibleString", "VisibleTime"] = .ok dummyTable ∧
    dummyTable.columnExist "VisibleInt" = .ok () ∧
    dummyTable.columnExist "VisibleString" = .ok () ∧
    dummyTable.columnExist "VisibleBool" = .ok () ∧
    dummyTable.columnExist "invisibleInt" = .error ErrColumnNameNotExist ∧
    dummyTable.columnExist "invisibleString" = .error ErrColumnNameNotExist ∧
    dummyTable.columnExist "invisibleBool" = .error ErrColumnNameNotExist := by
  decide

/-- The calls of `TestStructTable_Insert_Duplicate`: the second record has the
timestamp of the first and is refused. -/
theorem test_Insert_Duplicate :
    dummyTable.Count = 0 ∧
    (dummyTable.Insert (dummy 1 "One" false 11 "OneOne" true tNow)).2 = .ok () ∧
    (dummyTable.Insert (dummy 1 "One" false 11 "OneOne" true tNow)).1.Count = 1 ∧
    ((dummyTable.Insert (dummy 1 "One" false 11 "OneOne" true tNow)).1.Insert
      (dummy 2 "Two" false 22 "TwoTwo" true tNow)).2 =
        .error (Errorf ErrUniqueConstraintViolation " :  VisibleTime") ∧
    ((dummyTable.Insert (dummy 1 "One" false 11 "OneOne" true tNow)).1.Insert
      (dummy 2 "Two" false 22 "TwoTwo" true tNow)).1.Count = 1 := by
  decide

/-! ## C1: a duplicate on a unique column is rejected -/

/-- C1, as stated, fails in four ways.  First, in the table of `demo.Pair` (columns `A`
and `B` unique) holding `{1, 10}` and `{2, 20}`, the new record `{1, 20}` agrees with
the stored record `{2, 20}` on the unique column `B`, yet the error `Insert` returns
names column `A`, on which these two records differ (it is the first stored record that
agrees on `A`).  Second, `Insert` accepts any struct whose type name is the table's and
reads the stored rows by position: in the table of `demo.T` (`X` unique) that holds
the value `T{Z: "z", X: "a"}` of another type named `demo.T`, the record
`T{X: "a", W: "w"}` of the table's type has the same `X` and is inserted without
error.  Third, `NewStructTable` accepts as unique a column promoted from an embedded
struct, which `Insert`, looping over the declared fields, never scans: in the table of
`demo.Outer` (`struct { Inner; Y int }`, the promoted `X` unique) the same record is
inserted twice without error.  Fourth, values are compared with Go's `==`: in the table
of `demo.F` (`F` unique) holding `F{F: NaN}` the same record is inserted again without
error. -/
theorem insert_duplicate_names_other_column :
    (NewStructTable typeOuter ["X"] = .ok tableOuter ∧
      IsRecord "demo.Outer" [fieldInner, fieldY] (outer 1 1) ∧
      (tableOuter.Insert (outer 1 1)).2 = .ok () ∧
      (tableOuter.Insert (outer 1 1)).1.dataSet = [outer 1 1] ∧
      ((tableOuter.Insert (outer 1 1)).1.Insert (outer 1 1)).2 = .ok () ∧
      ((tableOuter.Insert (outer 1 1)).1.Insert (outer 1 1)).1.dataSet =
        [outer 1 1, outer 1 1]) ∧
    (NewStructTable typeF ["F"] = .ok { tableF with dataSet := [] } ∧
      IsRecord "demo.F" [fieldF] valueNaN ∧
      tableF.dataSet = [valueNaN] ∧ floatIsNaN nanBits = true ∧
      (tableF.Insert valueNaN).2 = .ok () ∧
      (tableF.Insert valueNaN).1.dataSet = [valueNaN, valueNaN]) ∧
    ((tableT.run [.Insert valueT3]).dataSet = [valueT3] ∧
      valueT.typ = some (tableT.run [.Insert valueT3]).MetaType ∧
      "X" ∈ (tableT.run [.Insert valueT3]).Uniques ∧
      valueT3.column "X" = some (.string "a") ∧ valueT.column "X" = some (.string "a") ∧
      ((tableT.run [.Insert valueT3]).Insert valueT).2 = .ok () ∧
      ((tableT.run [.Insert valueT3]).Insert valueT).1.dataSet = [valueT3, valueT]) ∧
    pairTable.WellFormed "demo.Pair" [fieldA, fieldB] ∧
    IsRecord "demo.Pair" [fieldA, fieldB] (pair 1 20) ∧
    pair 2 20 ∈ pairTable.dataSet ∧
    [fieldA, fieldB][1]? = some fieldB ∧ fieldB.Name ∈ pairTable.Uniques ∧
    fieldB.supported ∧ (pair 2 20).sameOn (pair 1 20) 1 = true ∧
    ¬ ∃ j g, [fieldA, fieldB][j]? = some g ∧ g.Name ∈ pairTable.Uniques ∧
        (pair 2 20).sameOn (pair 1 20) j = true ∧
        (pairTable.Insert (pair 1 20)).2 =
          .error (Errorf ErrUniqueConstraintViolation (" :  " ++ g.Name)) := by
  refine ⟨⟨by decide, ⟨rfl, by decide⟩, by decide⟩, ⟨by decide, ⟨rfl, by decide⟩, by decide⟩,
    by decide, pairTable_wellFormed, ⟨rfl, by decide⟩, by decide,
    by decide, by decide, by decide, by decide, ?_⟩
  rintro ⟨j, g, hj, _, hs, he⟩
  match j with
  | 0 => revert hs; decide
  | 1 =>
    simp at hj
    subst hj
    revert he
    decide
  | j + 2 => simp at hj

/-- C1, amended: on a table whose stored rows are records of its record type and a
record of that type, if some stored record has the same value (under the kind's
equality rule, Go's `==`) as the new record on a declared-unique column of supported
kind that is a declared field of the record type, then `Insert` returns an error that
wraps `ErrUniqueConstraintViolation` and names a declared-unique column of supported
kind, a declared field, on which the new record agrees with some stored record, namely
the first such column in field order; the table, and so `Count()`, is unchanged. -/
theorem insert_duplicate_rejected (st : StructTable) (name : String)
    (fields : List StructField) (data r : GoValue) (i : Nat) (f : StructField)
    (hst : st.WellFormed name fields) (hdata : IsRecord name fields data)
    (hr : r ∈ st.dataSet) (hf : fields[i]? = some f) (hu : f.Name ∈ st.Uniques)
    (hs : f.supported) (hsame : r.sameOn data i = true) :
    ∃ j g q, fields[j]? = some g ∧ g.Name ∈ st.Uniques ∧ g.supported ∧
      q ∈ st.dataSet ∧ q.sameOn data j = true ∧ j ≤ i ∧
      (∀ j2 g2, j2 < j → fields[j2]? = some g2 → g2.Name ∈ st.Uniques → g2.supported →
        ∀ q2 ∈ st.dataSet, q2.sameOn data j2 = false) ∧
      (st.Insert data).2 = .error (Errorf ErrUniqueConstraintViolation (" :  " ++ g.Name)) ∧
      (Errorf ErrUniqueConstraintViolation (" :  " ++ g.Name)).Is
        ErrUniqueConstraintViolation = true ∧
      (st.Insert data).1 = st ∧ (st.Insert data).1.Count = st.Count := by
  have hI := Insert_record st name fields data hst hdata
  rcases insertLoop_spec st name fields data hst hdata fields 0 (by simp) with
    ⟨_, hall⟩ | ⟨m, g, q, hg, hgu, hgs, hq, hqs, herr, hfirst⟩
  · have := hall i f hf hu hs r hr
    simp [hsame] at this
  · rw [herr] at hI
    simp only [Nat.zero_add] at hqs hfirst
    have hle : m ≤ i := by
      by_contra hlt
      have := hfirst i f (by omega) hf hu hs r hr
      rw [hsame] at this
      cases this
    refine ⟨m, g, q, hg, hgu, hgs, hq, hqs, hle, hfirst, ?_, Errorf_Is _ _, ?_, ?_⟩ <;>
      rw [hI]

/-- C1, amended, at the table of `demo.Pair` and the new record `{1, 20}`. -/
theorem insert_duplicate_rejected_witness :
    ∃ j g q, [fieldA, fieldB][j]? = some g ∧ g.Name ∈ pairTable.Uniques ∧ g.supported ∧
      q ∈ pairTable.dataSet ∧ q.sameOn (pair 1 20) j = true ∧ j ≤ 1 ∧
      (∀ j2 g2, j2 < j → [fieldA, fieldB][j2]? = some g2 → g2.Name ∈ pairTable.Uniques →
        g2.supported → ∀ q2 ∈ pairTable.dataSet, q2.sameOn (pair 1 20) j2 = false) ∧
      (pairTable.Insert (pair 1 20)).2 =
        .error (Errorf ErrUniqueConstraintViolation (" :  " ++ g.Name)) ∧
      (Errorf ErrUniqueConstraintViolation (" :  " ++ g.Name)).Is
        ErrUniqueConstraintViolation = true ∧
      (pairTable.Insert (pair 1 20)).1 = pairTable ∧
      (pairTable.Insert (pair 1 20)).1.Count = pairTable.Count :=
  insert_duplicate_rejected pairTable "demo.Pair" [fieldA, fieldB] (pair 1 20) (pair 2 20) 1
    fieldB pairTable_wellFormed ⟨rfl, by decide⟩ (by decide) (by decide) (by decide)
    (by decide) (by decide)

/-! ## C2: the uniqueness invariant -/

/-- The table after `Insert` is the table before it, or the call returned no error and
the table is the one before it with the value appended. -/
theorem Insert_state (st : StructTable) (data : GoValue) :
    ((st.Insert data).2 ≠ .ok () ∧ (st.Insert data).1 = st) ∨
    ((st.Insert data).2 = .ok () ∧
      (st.Insert data).1 = { st with dataSet := st.dataSet ++ [data] }) := by
  unfold StructTable.Insert
  cases data.typ with
  | none => simp
  | some t =>
    simp only
    split_ifs with h1 h2
    · simp
    · simp
    · cases t.Fields with
      | none => simp
      | some fields =>
        simp only
        cases hl : st.insertLoop data 0 fields <;> simp

/-- What a successful `NewStructTable` returns. -/
theorem NewStructTable_ok (metaType : GoType) (uniques : List String) (st : StructTable)
    (h : NewStructTable metaType uniques = .ok st) :
    st.dataSet = [] ∧ st.Uniques = uniques ∧
    (∃ name fields, st.MetaType = .struct name fields ∧
      (metaType = .struct name fields ∨ metaType = .ptr (.struct name fields))) ∧
    st.validate = .ok () := by
  unfold NewStructTable at h
  simp only at h
  split_ifs at h with hk
  · cases metaType with
    | struct n fs => simp [GoType.Kind] at hk
    | other k s h1 h2 => exact absurd hk h2
    | ptr e =>
      simp only [GoType.Elem] at h
      cases hv : StructTable.validate ⟨e, uniques, []⟩ <;> rw [hv] at h <;> simp at h
      subst h
      refine ⟨rfl, rfl, ?_, hv⟩
      cases e with
      | struct n fs => exact ⟨n, fs, rfl, Or.inr rfl⟩
      | ptr e2 => simp [StructTable.validate, GoType.Kind] at hv
      | other k s h1 h2 => simp [StructTable.validate, GoType.Kind, h1] at hv
  · cases hv : StructTable.validate ⟨metaType, uniques, []⟩ <;> rw [hv] at h <;> simp at h
    subst h
    refine ⟨rfl, rfl, ?_, hv⟩
    cases metaType with
    | struct n fs => exact ⟨n, fs, rfl, Or.inl rfl⟩
    | ptr e2 => simp [GoType.Kind] at hk
    | other k s h1 h2 => simp [StructTable.validate, GoType.Kind, h1] at hv

theorem string_length_zero_iff (k : String) : k.length = 0 ↔ k = "" := by
  cases k with
  | mk l =>
    constructor
    · intro h
      have : l = [] := by simpa [String.length] using h
      subst this
      rfl
    · intro h
      rw [h]
      rfl

/-- The loop of `columnsExist` on a struct type: it succeeds when every name passes
`columnExist`; otherwise it stops at the first name that is empty or fails
`columnExist`, with `ErrColumnNameEmpty` or `ErrColumnNameNotExist`. -/
theorem columnsExistLoop_struct (st : StructTable) (name : String)
    (fields : List StructField) (hm : st.MetaType = .struct name fields) :
    ∀ ks : List String,
      (st.columnsExistLoop ks = .ok () ∧ ∀ k ∈ ks, st.columnExist k = .ok ()) ∨
      (∃ pre k post, ks = pre ++ k :: post ∧ (∀ x ∈ pre, st.columnExist x = .ok ()) ∧
        st.columnExist k = .error ErrColumnNameNotExist ∧
        ((k = "" ∧ st.columnsExistLoop ks = .error ErrColumnNameEmpty) ∨
         (k ≠ "" ∧ st.columnsExistLoop ks = .error ErrColumnNameNotExist))) := by
  intro ks
  induction ks with
  | nil => left; exact ⟨rfl, by simp⟩
  | cons k rest ih =>
    by_cases hk : k = ""
    · right
      refine ⟨[], k, rest, rfl, by simp, ?_, Or.inl ⟨hk, ?_⟩⟩
      · rcases columnExist_struct st name fields hm k with ⟨_, ⟨f, _, hf⟩, _⟩ | ⟨h, _⟩
        · exact absurd (hf.trans hk) f.nonempty
        · exact h
      · simp [StructTable.columnsExistLoop, hk]
    · have hlen : ¬ k.length = 0 := fun h => hk ((string_length_zero_iff k).mp h)
      rcases columnExist_struct st name fields hm k with ⟨hok, _⟩ | ⟨herr, _⟩
      · have heq : st.columnsExistLoop (k :: rest) = st.columnsExistLoop rest := by
          simp [StructTable.columnsExistLoop, hlen, hok]
        rcases ih with ⟨h1, h2⟩ | ⟨pre, x, post, hsplit, hpre, hx, hcase⟩
        · left
          refine ⟨heq.trans h1, ?_⟩
          intro y hy
          rcases List.mem_cons.mp hy with rfl | hy
          · exact hok
          · exact h2 y hy
        · right
          refine ⟨k :: pre, x, post, by simp [hsplit], ?_, hx, ?_⟩
          · intro y hy
            rcases List.mem_cons.mp hy with rfl | hy
            · exact hok
            · exact hpre y hy
          · rw [heq]
            exact hcase
      · right
        refine ⟨[], k, rest, rfl, by simp, herr, Or.inr ⟨hk, ?_⟩⟩
        simp [StructTable.columnsExistLoop, hlen, herr]

/-- The method `validate` on a struct type: it succeeds exactly when every declared
unique column passes `columnExist`, and fails with `ErrUniquesColumnNameNotExist`
otherwise. -/
theorem validate_struct (st : StructTable) (name : String) (fields : List StructField)
    (hm : st.MetaType = .struct name fields) :
    (st.validate = .ok () ∧ ∀ k ∈ st.Uniques, st.columnExist k = .ok ()) ∨
    (st.validate = .error ErrUniquesColumnNameNotExist ∧
      ∃ k ∈ st.Uniques, st.columnExist k = .error ErrColumnNameNotExist) := by
  have hkind : st.MetaType.Kind = Kind.struct := by rw [hm]; rfl
  rcases columnsExistLoop_struct st name fields hm st.Uniques with
    ⟨h1, h2⟩ | ⟨pre, k, post, hsplit, _, hk, hcase⟩
  · left
    refine ⟨?_, h2⟩
    unfold StructTable.validate StructTable.columnsExist
    by_cases hl : st.Uniques.length > 0 <;> simp [hkind, hl, h1]
  · right
    refine ⟨?_, k, by simp [hsplit], hk⟩
    have hl : st.Uniques.length > 0 := by simp [hsplit]
    unfold StructTable.validate StructTable.columnsExist
    rcases hcase with ⟨_, h⟩ | ⟨_, h⟩ <;> simp [hkind, hl, h]

/-- A freshly built table is a table of the data model. -/
theorem NewStructTable_wellFormed (metaType : GoType) (uniques : List String)
    (st : StructTable) (name : String) (fields : List StructField)
    (h : NewStructTable metaType uniques = .ok st) (hm : st.MetaType = .struct name fields) :
    st.WellFormed name fields := by
  obtain ⟨hd, _, _, hv⟩ := NewStructTable_ok metaType uniques st h
  refine ⟨hm, ?_, by simp [hd]⟩
  rcases validate_struct st name fields hm with ⟨_, h2⟩ | ⟨h1, _⟩
  · exact h2
  · rw [hv] at h1
    cases h1

/-- A value that `Insert` accepts is a struct whose type name is the table's. -/
theorem Insert_ok_type (st : StructTable) (data : GoValue) (h : (st.Insert data).2 = .ok ()) :
    ∃ t, data.typ = some t ∧ t.Kind = Kind.struct ∧ t.Str = st.MetaType.Str := by
  unfold StructTable.Insert at h
  cases ht : data.typ with
  | none => simp [ht] at h
  | some t =>
    refine ⟨t, rfl, ?_, ?_⟩
    · by_contra hk
      simp [ht, hk] at h
    · by_contra hs
      by_cases hk : t.Kind = Kind.struct <;> simp [ht, hk, hs] at h

/-- On a table of the data model, `Insert` of a record of its type either returns an
error or a panic and changes nothing, or finds no stored row agreeing with the record
on a declared-unique column of supported kind and appends the record. -/
theorem Insert_record_cases (st : StructTable) (name : String) (fields : List StructField)
    (data : GoValue) (hst : st.WellFormed name fields) (hdata : IsRecord name fields data) :
    ((∃ g, g ∈ fields ∧
        (st.Insert data).2 = .error (Errorf ErrUniqueConstraintViolation (" :  " ++ g.Name))) ∧
      (st.Insert data).1 = st) ∨
    ((st.Insert data).2 = .ok () ∧
      (st.Insert data).1 = { st with dataSet := st.dataSet ++ [data] } ∧
      ∀ i f, fields[i]? = some f → f.Name ∈ st.Uniques → f.supported →
        ∀ r ∈ st.dataSet, r.sameOn data i = false) := by
  have hI := Insert_record st name fields data hst hdata
  rcases insertLoop_spec st name fields data hst hdata fields 0 (by simp) with
    ⟨hok, hall⟩ | ⟨m, g, q, hg, _, _, _, _, herr, _⟩
  · right
    rw [hok] at hI
    refine ⟨by rw [hI], by rw [hI], ?_⟩
    intro i f hf hu hs r hr
    simpa using hall i f hf hu hs r hr
  · left
    rw [herr] at hI
    exact ⟨⟨g, List.getElem?_mem hg, by rw [hI]⟩, by rw [hI]⟩

/-- One call keeps a table inside the data model and keeps its rows pairwise distinct
on the declared-unique columns of supported kind, when the inserted value respects the
record type. -/
theorem call_preserves (st : StructTable) (name : String) (fields : List StructField)
    (c : Call) (hst : st.WellFormed name fields)
    (hu : UniqueRows st.Uniques fields st.dataSet) (hc : c.typed name fields) :
    (st.call c).WellFormed name fields ∧
    UniqueRows (st.call c).Uniques fields (st.call c).dataSet ∧
    (st.call c).Uniques = st.Uniques := by
  cases c with
  | Insert data =>
    simp only [StructTable.call]
    rcases Insert_state st data with ⟨_, hsame⟩ | ⟨hok, happ⟩
    · rw [hsame]
      exact ⟨hst, hu, rfl⟩
    · obtain ⟨t, ht, hk, hs⟩ := Insert_ok_type st data hok
      have hname : t.Str = name := by rw [hs, hst.metaType]; rfl
      have hdata : IsRecord name fields data := hc t ht hk hname
      rcases Insert_record_cases st name fields data hst hdata with
        ⟨⟨_, _, herr⟩, _⟩ | ⟨_, _, hall⟩
      · rw [hok] at herr
        cases herr
      · rw [happ]
        refine ⟨⟨hst.metaType, ?_, ?_⟩, ?_, rfl⟩
        · intro u hmem
          have := hst.uniques u hmem
          simpa [StructTable.columnExist] using this
        · intro r hr
          simp only [List.mem_append, List.mem_singleton] at hr
          rcases hr with hr | rfl
          · exact hst.rows r hr
          · exact hdata
        · unfold UniqueRows at hu ⊢
          simp only
          rw [List.pairwise_append]
          refine ⟨hu, by simp, ?_⟩
          intro x hx y hy i f hf hfu hfs
          simp only [List.mem_singleton] at hy
          subst hy
          exact hall i f hf hfu hfs x hx
  | Select w o off len => exact ⟨hst, hu, rfl⟩
  | Count => exact ⟨hst, hu, rfl⟩
  | Update set w => exact ⟨hst, hu, rfl⟩
  | Delete w => exact ⟨hst, hu, rfl⟩

/-- A sequence of calls keeps a table inside the data model and keeps its rows pairwise
distinct on the declared-unique columns of supported kind. -/
theorem run_preserves (name : String) (fields : List StructField) (calls : List Call) :
    ∀ st : StructTable, st.WellFormed name fields →
      UniqueRows st.Uniques fields st.dataSet → (∀ c ∈ calls, c.typed name fields) →
      (st.run calls).WellFormed name fields ∧
      UniqueRows (st.run calls).Uniques fields (st.run calls).dataSet ∧
      (st.run calls).Uniques = st.Uniques := by
  induction calls with
  | nil => intro st hst hu _; exact ⟨hst, hu, rfl⟩
  | cons c rest ih =>
    intro st hst hu hc
    obtain ⟨h1, h2, h3⟩ := call_preserves st name fields c hst hu (hc c (by simp))
    obtain ⟨k1, k2, k3⟩ := ih (st.call c) h1 h2 (fun d hd => hc d (by simp [hd]))
    exact ⟨k1, k2, k3.trans h3⟩

theorem floatEq_comm (a b : Nat) : floatEq a b = floatEq b a := by
  unfold floatEq
  by_cases h : a = b
  · subst h; rfl
  · have h2 : ¬ b = a := fun e => h e.symm
    cases floatIsNaN a <;> cases floatIsNaN b <;> cases floatIsZero a <;>
      cases floatIsZero b <;> simp [h, h2]

theorem goEq_comm (x y : FieldValue) : x.goEq y = y.goEq x := by
  cases x <;> cases y <;> simp [FieldValue.goEq, floatEq_comm, Bool.beq_comm, eq_comm]

theorem sameOn_comm (a b : GoValue) (i : Nat) : a.sameOn b i = b.sameOn a i := by
  unfold GoValue.sameOn
  cases a.vals[i]? <;> cases b.vals[i]? <;> simp [goEq_comm]

/-- C2, as stated, fails in two ways.  First, `NewStructTable` accepts as unique a
column promoted from an embedded struct, which `Insert`, looping over the declared
fields, never scans: in the table of `demo.Outer` (`struct { Inner; Y int }`, the
promoted `X` unique), inserting the same record twice succeeds twice, and the table
holds two records with the same value on `X`.  Second, `Insert` accepts any struct whose
type name equals the table's.  In the table of `demo.T` (fields `X`, `W`; `X` unique),
inserting `T{X: "a", W: "w"}` and then a value `T{Z: "a", X: "a"}` of another type also
named `demo.T` succeeds twice (the scan compares the new `X`, at position 1, with the
stored `W`), and the two stored records have the same value `"a"` on the unique column
`X`, as well as in the field at the column's position 0. -/
theorem uniqueness_broken_by_same_named_type :
    (NewStructTable typeOuter ["X"] = .ok tableOuter ∧
      IsRecord "demo.Outer" [fieldInner, fieldY] (outer 1 1) ∧
      (tableOuter.run [.Insert (outer 1 1), .Insert (outer 1 1)]).dataSet =
        [outer 1 1, outer 1 1] ∧
      (tableOuter.run [.Insert (outer 1 1), .Insert (outer 1 1)]).Uniques = ["X"]) ∧
    NewStructTable typeT ["X"] = .ok tableT ∧
    (tableT.run [.Insert valueT, .Insert valueT2]).dataSet = [valueT, valueT2] ∧
    (tableT.run [.Insert valueT, .Insert valueT2]).Uniques = ["X"] ∧
    (tableT.run [.Insert valueT, .Insert valueT2]).MetaType = .struct "demo.T" [fieldX, fieldW] ∧
    fieldX.supported ∧
    valueT.column "X" = some (.string "a") ∧ valueT2.column "X" = some (.string "a") ∧
    (FieldValue.string "a").goEq (.string "a") = true ∧
    valueT.sameOn valueT2 0 = true := by
  refine ⟨⟨by decide, ⟨rfl, by decide⟩, by decide, by decide⟩, ?_⟩
  decide

/-- C2, amended: in every table reachable from `NewStructTable` by a sequence of
`Insert`, `Select`, `Count`, `Update` and `Delete` calls in which every inserted struct
whose type name is the table's is a record of the table's record type, the stored
records are records of that type and, for every declared-unique column of supported
kind that is a declared field of the record type (not one promoted from an embedded
struct), any two stored records at different positions have different values on that
column under the kind's equality rule. -/
theorem reachable_rows_unique (metaType : GoType) (uniques : List String)
    (st0 : StructTable) (name : String) (fields : List StructField) (calls : List Call)
    (i : Nat) (f : StructField) (p q : Nat) (x y : GoValue)
    (h : NewStructTable metaType uniques = .ok st0)
    (hm : st0.MetaType = .struct name fields)
    (hc : ∀ c ∈ calls, c.typed name fields)
    (hf : fields[i]? = some f) (hu : f.Name ∈ uniques) (hs : f.supported)
    (hpq : p ≠ q) (hx : (st0.run calls).dataSet[p]? = some x)
    (hy : (st0.run calls).dataSet[q]? = some y) :
    IsRecord name fields x ∧ IsRecord name fields y ∧ x.sameOn y i = false := by
  obtain ⟨hd, hu0, _, _⟩ := NewStructTable_ok metaType uniques st0 h
  have hwf := NewStructTable_wellFormed metaType uniques st0 name fields h hm
  have huniq : UniqueRows st0.Uniques fields st0.dataSet := by
    rw [hd]
    exact List.Pairwise.nil
  obtain ⟨k1, k2, k3⟩ := run_preserves name fields calls st0 hwf huniq hc
  refine ⟨k1.rows x (List.getElem?_mem hx), k1.rows y (List.getElem?_mem hy), ?_⟩
  rw [k3, hu0] at k2
  obtain ⟨hp, hxe⟩ := List.getElem?_eq_some.mp hx
  obtain ⟨hq, hye⟩ := List.getElem?_eq_some.mp hy
  have hpair := List.pairwise_iff_getElem.mp k2
  rcases Nat.lt_or_gt_of_ne hpq with hlt | hgt
  · have := hpair p q hp hq hlt i f hf hu hs
    rwa [hxe, hye] at this
  · have := hpair q p hq hp hgt i f hf hu hs
    rw [hxe, hye] at this
    rwa [sameOn_comm]

/-- C2, amended, at the table of `demo.Pair` with `A` unique after inserting `{1, 10}`,
`{1, 20}` (rejected) and `{2, 10}`. -/
theorem reachable_rows_unique_witness :
    IsRecord "demo.Pair" [fieldA, fieldB] (pair 1 10) ∧
    IsRecord "demo.Pair" [fieldA, fieldB] (pair 2 10) ∧
    (pair 1 10).sameOn (pair 2 10) 0 = false :=
  reachable_rows_unique pairType ["A"] pairTableA "demo.Pair" [fieldA, fieldB]
    [.Insert (pair 1 10), .Count, .Insert (pair 1 20), .Insert (pair 2 10)]
    0 fieldA 0 1 (pair 1 10) (pair 2 10) (by decide) rfl
    (by
      intro c hc
      simp only [List.mem_cons, List.mem_singleton, List.not_mem_nil, or_false] at hc
      rcases hc with rfl | rfl | rfl | rfl
      · intro _ _ _ _; exact ⟨rfl, by decide⟩
      · trivial
      · intro _ _ _ _; exact ⟨rfl, by decide⟩
      · intro _ _ _ _; exact ⟨rfl, by decide⟩)
    (by decide) (by decide) (by decide) (by decide) (by decide) (by decide)

/-! ## C3: a record that collides on no unique column is appended -/

/-- Inserting one after the other records that collide neither with the stored rows nor
with each other on a declared-unique column of supported kind succeeds every time and
appends them in order. -/
theorem insertAll_spec (name : String) (fields : List StructField) (recs : List GoValue) :
    ∀ st : StructTable, st.WellFormed name fields →
      (∀ r ∈ recs, IsRecord name fields r) → UniqueRows st.Uniques fields recs →
      (∀ r ∈ recs, ∀ i f, fields[i]? = some f → f.Name ∈ st.Uniques → f.supported →
        ∀ x ∈ st.dataSet, x.sameOn r i = false) →
      (st.insertAll recs).2 = List.replicate recs.length (.ok ()) ∧
      (st.insertAll recs).1.dataSet = st.dataSet ++ recs := by
  induction recs with
  | nil => intro st _ _ _ _; simp [StructTable.insertAll]
  | cons d rest ih =>
    intro st hst hrecs hpair hfresh
    have hd : IsRecord name fields d := hrecs d (by simp)
    rcases Insert_record_cases st name fields d hst hd with
      ⟨⟨g, hg, herr⟩, _⟩ | ⟨hok, happ, _⟩
    · exfalso
      rcases insertLoop_spec st name fields d hst hd fields 0 (by simp) with
        ⟨hloop, _⟩ | ⟨m, g2, q, hg2, hu2, hs2, hq, hqs, _⟩
      · have hI := Insert_record st name fields d hst hd
        rw [hloop] at hI
        rw [hI] at herr
        cases herr
      · have := hfresh d (by simp) m g2 hg2 hu2 hs2 q hq
        simp only [Nat.zero_add] at hqs
        rw [hqs] at this
        cases this
    · have hwf : (st.Insert d).1.WellFormed name fields := by
        rw [happ]
        refine ⟨hst.metaType, ?_, ?_⟩
        · intro u hmem
          have := hst.uniques u hmem
          simpa [StructTable.columnExist] using this
        · intro r hr
          simp only [List.mem_append, List.mem_singleton] at hr
          rcases hr with hr | rfl
          · exact hst.rows r hr
          · exact hd
      have hU : (st.Insert d).1.Uniques = st.Uniques := by rw [happ]
      have hD : (st.Insert d).1.dataSet = st.dataSet ++ [d] := by rw [happ]
      unfold UniqueRows at hpair
      rw [List.pairwise_cons] at hpair
      have := ih (st.Insert d).1 hwf (fun r hr => hrecs r (by simp [hr]))
        (by rw [hU]; exact hpair.2)
        (by
          intro r hr i f hf hu hs x hx
          rw [hU] at hu
          rw [hD] at hx
          simp only [List.mem_append, List.mem_singleton] at hx
          rcases hx with hx | rfl
          · exact hfresh r (by simp [hr]) i f hf hu hs x hx
          · exact hpair.1 r hr i f hf hu hs)
      simp only [StructTable.insertAll, List.length_cons, List.replicate_succ]
      rw [this.1, this.2, hD, hok]
      simp

/-- C3, as stated, fails on a table that holds a struct of another type with the
table's type name: the table of `demo.T` (`X` unique) accepts the value
`T{Z: "a", X: "b"}` of the second type named `demo.T`; the record `T{X: "a", W: "w"}` of
the table's type differs from it on the unique column `X`, yet `Insert` compares the new
`X` with the stored field at the same position, `Z`, and returns the uniqueness
error. -/
theorem insert_fresh_rejected_by_position :
    (tableT.run [.Insert valueT4]).dataSet = [valueT4] ∧
    valueT.typ = some (tableT.run [.Insert valueT4]).MetaType ∧
    (tableT.run [.Insert valueT4]).Uniques = ["X"] ∧
    valueT4.column "X" = some (.string "b") ∧ valueT.column "X" = some (.string "a") ∧
    (FieldValue.string "b").goEq (.string "a") = false ∧
    ((tableT.run [.Insert valueT4]).Insert valueT).2 =
      .error (Errorf ErrUniqueConstraintViolation " :  X") ∧
    ((tableT.run [.Insert valueT4]).Insert valueT).1.dataSet = [valueT4] := by
  decide

/-- C3, amended: on a table whose stored rows are records of its record type and a
record of that type, if on every
declared-unique column of supported kind the record's value differs from the value of
every stored record, then `Insert` returns no error and the new row sequence is the old
one with the record appended (values on other columns are not looked at).  In
particular, inserting into an empty table `n` records that differ pairwise on every
declared-unique column of supported kind succeeds `n` times and gives `Count() = n`. -/
theorem insert_fresh_appends (st e : StructTable) (name : String)
    (fields : List StructField) (data : GoValue) (recs : List GoValue)
    (hst : st.WellFormed name fields) (hdata : IsRecord name fields data)
    (hfresh : ∀ i f, fields[i]? = some f → f.Name ∈ st.Uniques → f.supported →
      ∀ r ∈ st.dataSet, r.sameOn data i = false)
    (he : e.WellFormed name fields) (hempty : e.dataSet = [])
    (hrecs : ∀ r ∈ recs, IsRecord name fields r)
    (hpair : UniqueRows e.Uniques fields recs) :
    st.Insert data = ({ st with dataSet := st.dataSet ++ [data] }, .ok ()) ∧
    ((e.insertAll recs).2 = List.replicate recs.length (.ok ()) ∧
      (e.insertAll recs).1.dataSet = recs ∧
      (e.insertAll recs).1.Count = recs.length) := by
  constructor
  · have hI := Insert_record st name fields data hst hdata
    rcases insertLoop_spec st name fields data hst hdata fields 0 (by simp) with
      ⟨hloop, _⟩ | ⟨m, g, q, hg, hu, hs, hq, hqs, _⟩
    · rw [hloop] at hI
      exact hI
    · have := hfresh m g hg hu hs q hq
      simp only [Nat.zero_add] at hqs
      rw [hqs] at this
      cases this
  · obtain ⟨h1, h2⟩ := insertAll_spec name fields recs e he hrecs hpair
      (by intro r _ i f _ _ _ x hx; rw [hempty] at hx; cases hx)
    rw [hempty, List.nil_append] at h2
    exact ⟨h1, h2, by rw [StructTable.Count, h2]⟩

/-- C3, amended, at the table of `demo.Pair` holding `{1, 10}` and `{2, 20}` and the new record
`{3, 30}`, and at the empty table and the records `{1, 10}` and `{2, 20}`. -/
theorem insert_fresh_appends_witness :
    pairTable.Insert (pair 3 30) =
      ({ pairTable with dataSet := pairTable.dataSet ++ [pair 3 30] }, .ok ()) ∧
    ((pairTableEmpty.insertAll [pair 1 10, pair 2 20]).2 = List.replicate 2 (.ok ()) ∧
      (pairTableEmpty.insertAll [pair 1 10, pair 2 20]).1.dataSet = [pair 1 10, pair 2 20] ∧
      (pairTableEmpty.insertAll [pair 1 10, pair 2 20]).1.Count = 2) :=
  insert_fresh_appends pairTable pairTableEmpty "demo.Pair" [fieldA, fieldB] (pair 3 30)
    [pair 1 10, pair 2 20] pairTable_wellFormed ⟨rfl, by decide⟩
    (by
      intro i f hf _ _ r hr
      simp only [pairTable, List.mem_cons, List.mem_singleton, List.not_mem_nil, or_false] at hr
      match i with
      | 0 => rcases hr with rfl | rfl <;> decide
      | 1 => rcases hr with rfl | rfl <;> decide
      | j + 2 => simp at hf)
    ⟨rfl, by decide, by simp [pairTableEmpty]⟩ rfl
    (by
      intro r hr
      simp only [List.mem_cons, List.mem_singleton, List.not_mem_nil, or_false] at hr
      rcases hr with rfl | rfl <;> exact ⟨rfl, by decide⟩)
    (by
      unfold UniqueRows
      simp only [List.pairwise_cons, List.mem_cons, List.mem_singleton, List.not_mem_nil,
        or_false, forall_eq, List.Pairwise.nil, and_true, IsEmpty.forall_iff, implies_true]
      intro i f hf _ _
      match i with
      | 0 => decide
      | 1 => decide
      | j + 2 => simp at hf)

/-! ## C4: `Count()` counts the successful inserts -/

theorem run_append (calls more : List Call) :
    ∀ st : StructTable, st.run (calls ++ more) = (st.run calls).run more := by
  induction calls with
  | nil => intro st; rfl
  | cons c rest ih => intro st; simp [StructTable.run, ih]

theorem run_count (calls : List Call) :
    ∀ st : StructTable, (st.run calls).Count = st.Count + st.inserted calls := by
  induction calls with
  | nil => intro st; simp [StructTable.run, StructTable.inserted]
  | cons c rest ih =>
    intro st
    cases c with
    | Insert data =>
      simp only [StructTable.run, StructTable.inserted, StructTable.call]
      rw [ih]
      rcases Insert_state st data with ⟨hne, hsame⟩ | ⟨hok, happ⟩
      · simp [hne, hsame]
      · simp [hok, happ, StructTable.Count]
        omega
    | Select w o off len => simp [StructTable.run, StructTable.inserted, StructTable.call, ih]
    | Count => simp [StructTable.run, StructTable.inserted, StructTable.call, ih]
    | Update set w =>
      simp [StructTable.run, StructTable.inserted, StructTable.call, StructTable.Update, ih]
    | Delete w =>
      simp [StructTable.run, StructTable.inserted, StructTable.call, StructTable.Delete, ih]

/-- C4: after any sequence of `Insert`, `Select`, `Count`, `Update` and `Delete` calls on
a table freshly built by `NewStructTable`, `Count()` is the number of `Insert` calls of
the sequence that returned no error; it is 0 for the fresh table and does not decrease
when the sequence goes on. -/
theorem count_is_successful_inserts (metaType : GoType) (uniques : List String)
    (st0 : StructTable) (calls more : List Call)
    (h : NewStructTable metaType uniques = .ok st0) :
    st0.Count = 0 ∧ (st0.run calls).Count = st0.inserted calls ∧
    (st0.run calls).Count ≤ (st0.run (calls ++ more)).Count := by
  obtain ⟨hd, _, _, _⟩ := NewStructTable_ok metaType uniques st0 h
  have h0 : st0.Count = 0 := by simp [StructTable.Count, hd]
  refine ⟨h0, by rw [run_count, h0, Nat.zero_add], ?_⟩
  rw [run_append, run_count more (st0.run calls)]
  omega

/-- C4 at the table of `demo.Pair` with `A` unique: of the inserts `{1, 10}`, `{1, 20}`
and `{2, 10}` the second fails, and `Count()` is 2. -/
theorem count_is_successful_inserts_witness :
    pairTableA.Count = 0 ∧
    (pairTableA.run [.Insert (pair 1 10), .Insert (pair 1 20), .Count,
        .Insert (pair 2 10)]).Count =
      pairTableA.inserted [.Insert (pair 1 10), .Insert (pair 1 20), .Count,
        .Insert (pair 2 10)] ∧
    (pairTableA.run [.Insert (pair 1 10), .Insert (pair 1 20), .Count,
        .Insert (pair 2 10)]).Count ≤
      (pairTableA.run ([.Insert (pair 1 10), .Insert (pair 1 20), .Count,
        .Insert (pair 2 10)] ++ [.Delete "A == 1"])).Count :=
  count_is_successful_inserts pairType ["A"] pairTableA
    [.Insert (pair 1 10), .Insert (pair 1 20), .Count, .Insert (pair 2 10)]
    [.Delete "A == 1"] (by decide)

/-! ## C5: a failed `Insert` changes nothing -/

/-- C5: if `Insert` returns an error, whatever the table and the value, the table's row
sequence, record type and unique-column list are what they were before the call. -/
theorem insert_error_keeps_table (st : StructTable) (data : GoValue) (e : Err)
    (h : (st.Insert data).2 = .error e) :
    (st.Insert data).1 = st ∧ (st.Insert data).1.dataSet = st.dataSet ∧
    (st.Insert data).1.MetaType = st.MetaType ∧ (st.Insert data).1.Uniques = st.Uniques := by
  rcases Insert_state st data with ⟨_, hsame⟩ | ⟨hok, _⟩
  · rw [hsame]
    exact ⟨rfl, rfl, rfl, rfl⟩
  · rw [hok] at h
    cases h

/-- C5 at the table of `demo.Pair` holding `{1, 10}` and `{2, 20}` and the colliding
record `{1, 20}`. -/
theorem insert_error_keeps_table_witness :
    (pairTable.Insert (pair 1 20)).2 =
      .error (Errorf ErrUniqueConstraintViolation " :  A") ∧
    ((pairTable.Insert (pair 1 20)).1 = pairTable ∧
      (pairTable.Insert (pair 1 20)).1.dataSet = pairTable.dataSet ∧
      (pairTable.Insert (pair 1 20)).1.MetaType = pairTable.MetaType ∧
      (pairTable.Insert (pair 1 20)).1.Uniques = pairTable.Uniques) :=
  ⟨by decide, insert_error_keeps_table pairTable (pair 1 20)
    (Errorf ErrUniqueConstraintViolation " :  A") (by decide)⟩

/-! ## C6: when `NewStructTable` succeeds -/

theorem validate_iff (name : String) (fields : List StructField) (uniques : List String) :
    ((StructTable.mk (.struct name fields) uniques []).validate = .ok () ↔
      ColumnsVisible fields uniques) ∧
    ((StructTable.mk (.struct name fields) uniques []).validate =
      .error ErrUniquesColumnNameNotExist ↔ ¬ ColumnsVisible fields uniques) := by
  have key : ∀ k, (StructTable.mk (.struct name fields) uniques []).columnExist k = .ok () ↔
      ((∃ f ∈ selectableFields fields, f.Name = k) ∧
        ∃ b, headByte k = some b ∧ 65 ≤ b ∧ b ≤ 90) := by
    intro k
    rcases columnExist_struct ⟨.struct name fields, uniques, []⟩ name fields rfl k with
      ⟨h1, h2⟩ | ⟨h1, h2⟩
    · simp only [h1, true_iff]; exact h2
    · rw [h1]
      constructor
      · intro h; cases h
      · intro h; exact absurd h h2
  rcases validate_struct ⟨.struct name fields, uniques, []⟩ name fields rfl with
    ⟨h1, h2⟩ | ⟨h1, k, hk, hkerr⟩
  · have hv : ColumnsVisible fields uniques := fun k hk => (key k).mp (h2 k hk)
    rw [h1]
    exact ⟨by simp [hv], by simp [hv]⟩
  · have hv : ¬ ColumnsVisible fields uniques := by
      intro hv
      have := (key k).mpr (hv k hk)
      rw [this] at hkerr
      cases hkerr
    rw [h1]
    exact ⟨by simp [hv], by simp [hv]⟩

/-- The two outcomes of `NewStructTable` on a struct type, given directly or as a
pointer to it. -/
theorem NewStructTable_struct_cases (name : String) (fields : List StructField)
    (uniques : List String) :
    (NewStructTable (.struct name fields) uniques = .ok ⟨.struct name fields, uniques, []⟩ ↔
      ColumnsVisible fields uniques) ∧
    (NewStructTable (.struct name fields) uniques = .error ErrUniquesColumnNameNotExist ↔
      ¬ ColumnsVisible fields uniques) ∧
    (NewStructTable (.ptr (.struct name fields)) uniques =
      .ok ⟨.struct name fields, uniques, []⟩ ↔ ColumnsVisible fields uniques) ∧
    (NewStructTable (.ptr (.struct name fields)) uniques =
      .error ErrUniquesColumnNameNotExist ↔ ¬ ColumnsVisible fields uniques) := by
  obtain ⟨hok, herr⟩ := validate_iff name fields uniques
  have hcases : (StructTable.mk (.struct name fields) uniques []).validate = .ok () ∨
      (StructTable.mk (.struct name fields) uniques []).validate =
        .error ErrUniquesColumnNameNotExist := by
    rcases validate_struct ⟨.struct name fields, uniques, []⟩ name fields rfl with
      ⟨h1, _⟩ | ⟨h1, _⟩
    · exact Or.inl h1
    · exact Or.inr h1
  have hnew : NewStructTable (.struct name fields) uniques =
      match (StructTable.mk (.struct name fields) uniques []).validate with
      | .ok _ => .ok ⟨.struct name fields, uniques, []⟩
      | .error e => .error e
      | .panic => .panic
      | .fatal => .fatal := by
    simp [NewStructTable, GoType.Kind]
  have hptr : NewStructTable (.ptr (.struct name fields)) uniques =
      NewStructTable (.struct name fields) uniques := by
    simp [NewStructTable, GoType.Kind, GoType.Elem]
  have e1 : NewStructTable (.struct name fields) uniques =
      .ok ⟨.struct name fields, uniques, []⟩ ↔ ColumnsVisible fields uniques := by
    rw [← hok, hnew]
    rcases hcases with h | h <;> rw [h] <;> simp
  have e2 : NewStructTable (.struct name fields) uniques =
      .error ErrUniquesColumnNameNotExist ↔ ¬ ColumnsVisible fields uniques := by
    rw [← herr, hnew]
    rcases hcases with h | h <;> rw [h] <;> simp
  exact ⟨e1, e2, by rw [hptr]; exact e1, by rw [hptr]; exact e2⟩

/-- A name promoted from an embedded struct is the name of a field of the type: for
`demo.Outer` (`struct { Inner; Y int }`, where `Inner` is `struct { X int }`)
`NewStructTable` accepts the promoted `X`, the embedded field `Inner` and the declared
`Y` as unique columns, and refuses the name `Z` of no field. -/
theorem NewStructTable_promoted_column :
    NewStructTable typeOuter ["X"] = .ok tableOuter ∧
    NewStructTable (.ptr typeOuter) ["X", "Inner", "Y"] =
      .ok { tableOuter with Uniques := ["X", "Inner", "Y"] } ∧
    ColumnsVisible [fieldInner, fieldY] ["X", "Inner", "Y"] ∧
    NewStructTable typeOuter ["Z"] = .error ErrUniquesColumnNameNotExist := by
  refine ⟨by decide, by decide, ?_, by decide⟩
  intro k hk
  simp only [List.mem_cons, List.mem_singleton, List.not_mem_nil, or_false] at hk
  rcases hk with rfl | rfl | rfl
  · exact ⟨⟨PromotedField.toField { Name := "X", Typ := ⟨.int, "int"⟩ }, by decide, rfl⟩,
      88, by decide, by decide, by decide⟩
  · exact ⟨⟨fieldInner, by decide, rfl⟩, 73, by decide, by decide, by decide⟩
  · exact ⟨⟨fieldY, by decide, rfl⟩, 89, by decide, by decide, by decide⟩

/-- C6: for a struct type, given directly or as a pointer to it, and a list of
unique-column names, `NewStructTable` succeeds (returning the empty table of the struct
type with these unique columns) if and only if every name of the list is the name of a
field of the type, declared or promoted from an embedded struct, and starts with a byte
in `'A'..'Z'`; otherwise it fails with `ErrUniquesColumnNameNotExist`.  It succeeds for
the empty list. -/
theorem NewStructTable_succeeds_iff (name : String) (fields : List StructField)
    (uniques : List String) :
    (NewStructTable (.struct name fields) uniques = .ok ⟨.struct name fields, uniques, []⟩ ↔
      ColumnsVisible fields uniques) ∧
    (NewStructTable (.struct name fields) uniques = .error ErrUniquesColumnNameNotExist ↔
      ¬ ColumnsVisible fields uniques) ∧
    (NewStructTable (.ptr (.struct name fields)) uniques =
      .ok ⟨.struct name fields, uniques, []⟩ ↔ ColumnsVisible fields uniques) ∧
    (NewStructTable (.ptr (.struct name fields)) uniques =
      .error ErrUniquesColumnNameNotExist ↔ ¬ ColumnsVisible fields uniques) ∧
    ((∃ st, NewStructTable (.struct name fields) uniques = .ok st) ↔
      ColumnsVisible fields uniques) ∧
    ((∃ st, NewStructTable (.ptr (.struct name fields)) uniques = .ok st) ↔
      ColumnsVisible fields uniques) ∧
    NewStructTable (.struct name fields) [] = .ok ⟨.struct name fields, [], []⟩ ∧
    NewStructTable (.ptr (.struct name fields)) [] = .ok ⟨.struct name fields, [], []⟩ := by
  obtain ⟨e1, e2, e3, e4⟩ := NewStructTable_struct_cases name fields uniques
  obtain ⟨n1, _, n3, _⟩ := NewStructTable_struct_cases name fields []
  have hnil : ColumnsVisible fields [] := by intro k hk; cases hk
  refine ⟨e1, e2, e3, e4, ?_, ?_, n1.mpr hnil, n3.mpr hnil⟩
  · constructor
    · rintro ⟨st, hst⟩
      by_contra hv
      rw [e2.mpr hv] at hst
      cases hst
    · intro hv
      exact ⟨_, e1.mpr hv⟩
  · constructor
    · rintro ⟨st, hst⟩
      by_contra hv
      rw [e4.mpr hv] at hst
      cases hst
    · intro hv
      exact ⟨_, e3.mpr hv⟩

/-! ## C7: `Select` returns the matching rows in insertion order -/

theorem pairTable_isStruct : ∀ r ∈ pairTable.dataSet, r.isStruct :=
  fun r hr => ⟨"demo.Pair", [fieldA, fieldB], pairTable_wellFormed.rows r hr⟩

theorem headByte_some (s : String) (h : s ≠ "") : ∃ b, headByte s = some b := by
  unfold headByte
  cases hd : s.data with
  | nil =>
    exfalso
    apply h
    cases s
    simp_all
  | cons a l =>
    simp only
    split_ifs <;> exact ⟨_, rfl⟩

/-- On a well-typed field of supported kind the accessor that `ToMap` uses does not
panic. -/
theorem toMap_accessor (t : FieldType) (x : FieldValue) (hx : x.hasType t = true) :
    match GetBaseKindOfType t with
    | BaseKindInt => ∃ n, (Value.mk t x).getInt = some n
    | BaseKindUint => ∃ n, (Value.mk t x).getUint = some n
    | BaseKindFloat => ∃ n, (Value.mk t x).getFloat = some n
    | BaseKindBool => ∃ b, (Value.mk t x).getBool = some b
    | BaseKindString => True
    | BaseKindTime => ∃ tm, (Value.mk t x).getTime = some tm
    | BaseKindOther => True := by
  obtain ⟨k, str⟩ := t
  by_cases hs : str = "time.Time" <;> cases x <;> cases k <;>
    simp [FieldValue.hasType, GetBaseKindOfType, hs] at hx <;>
    simp [GetBaseKindOfType, Value.getBool, Value.getInt, Value.getUint, Value.getFloat,
      Value.getTime, Kind.isInt, Kind.isUint, Kind.isFloat, hs]

/-- The loop of `ToMap` does not panic on a record. -/
theorem toMapLoop_total (name : String) (fields : List StructField) (v : GoValue)
    (hv : IsRecord name fields v) :
    ∀ (fs : List StructField) (i : Nat) (ret : GoMap),
      (∀ m f, fs[m]? = some f → fields[i + m]? = some f) →
      ∃ res, toMapLoop v i fs ret = some res := by
  intro fs
  induction fs with
  | nil => intro i ret _; exact ⟨ret, rfl⟩
  | cons f rest ih =>
    intro i ret h
    have hf0 : fields[i]? = some f := by simpa using h 0 f (by simp)
    have hshift : ∀ m g, rest[m]? = some g → fields[i + 1 + m]? = some g := by
      intro m g hg
      have := h (m + 1) g (by simpa using hg)
      rwa [show i + (m + 1) = i + 1 + m by omega] at this
    obtain ⟨b, hb⟩ := headByte_some f.Name f.nonempty
    obtain ⟨x, _, hxt, hfield⟩ := record_field name fields v hv i f hf0
    have hacc := toMap_accessor f.Typ x hxt
    unfold toMapLoop
    simp only [hb, hfield]
    split_ifs with hc
    · exact ih (i + 1) ret hshift
    · cases hk : GetBaseKindOfType f.Typ <;> rw [hk] at hacc <;> simp only at hacc ⊢
      · obtain ⟨n, hn⟩ := hacc
        simp only [hn, Option.bind_some]
        exact ih (i + 1) _ hshift
      · obtain ⟨n, hn⟩ := hacc
        simp only [hn, Option.bind_some]
        exact ih (i + 1) _ hshift
      · obtain ⟨n, hn⟩ := hacc
        simp only [hn, Option.bind_some]
        exact ih (i + 1) _ hshift
      · obtain ⟨n, hn⟩ := hacc
        simp only [hn, Option.bind_some]
        exact ih (i + 1) _ hshift
      · exact ih (i + 1) _ hshift
      · obtain ⟨n, hn⟩ := hacc
        simp only [hn, Option.bind_some]
        exact ih (i + 1) _ hshift
      · exact ih (i + 1) _ hshift

/-- The function `ToMap` does not panic on a record. -/
theorem ToMap_total (name : String) (fields : List StructField) (v : GoValue)
    (hv : IsRecord name fields v) : ∃ res, ToMap v = some res := by
  obtain ⟨res, hres⟩ := toMapLoop_total name fields v hv fields 0 [] (by simp)
  exact ⟨res, by simp [ToMap, hv.1, GoType.Fields, hres]⟩

theorem filterFieldNames_total (fs : List StructField) :
    ∃ names, filterFieldNames fs = some names ∧ ∀ n ∈ names, ∃ f ∈ fs, f.Name = n := by
  induction fs with
  | nil => exact ⟨[], rfl, by simp⟩
  | cons f rest ih =>
    obtain ⟨names, hn, hsub⟩ := ih
    obtain ⟨b, hb⟩ := headByte_some f.Name f.nonempty
    unfold filterFieldNames
    simp only [hb, hn, Option.map_some]
    split_ifs with h1 h2
    · exact ⟨names, rfl, fun n hm => by
        obtain ⟨g, hg, hgn⟩ := hsub n hm
        exact ⟨g, by simp [hg], hgn⟩⟩
    · refine ⟨f.Name :: names, rfl, ?_⟩
      intro n hm
      rcases List.mem_cons.mp hm with rfl | hm
      · exact ⟨f, by simp, rfl⟩
      · obtain ⟨g, hg, hgn⟩ := hsub n hm
        exact ⟨g, by simp [hg], hgn⟩
    · exact ⟨names, rfl, fun n hm => by
        obtain ⟨g, hg, hgn⟩ := hsub n hm
        exact ⟨g, by simp [hg], hgn⟩⟩

theorem filterDeclarations_total (name : String) (fields : List StructField) :
    ∀ names : List String, (∀ n ∈ names, ∃ f ∈ fields, f.Name = n) →
      ∃ ds, filterDeclarations (.struct name fields) names = some ds := by
  intro names
  induction names with
  | nil => intro _; exact ⟨[], rfl⟩
  | cons n rest ih =>
    intro h
    obtain ⟨ds, hds⟩ := ih (fun m hm => h m (by simp [hm]))
    obtain ⟨f, hf, hfn⟩ := h n (by simp)
    cases hfind : (selectableFields fields).find? (fun g => g.Name == n) with
    | none =>
      have := List.find?_eq_none.mp hfind f (List.mem_append_left _ hf)
      simp [hfn] at this
    | some g =>
      unfold filterDeclarations
      simp only [GoType.FieldByName, hfind, hds, Option.map_some]
      exact ⟨_, rfl⟩

/-- The declarations that `filter` builds exist (no panic) on a table of the data
model. -/
theorem declarations_total (st : StructTable) (name : String) (fields : List StructField)
    (hm : st.MetaType = .struct name fields) : ∃ ds, st.declarations = some ds := by
  obtain ⟨names, hn, hsub⟩ := filterFieldNames_total fields
  obtain ⟨ds, hds⟩ := filterDeclarations_total name fields names hsub
  exact ⟨ds, by simp [StructTable.declarations, hm, GoType.Fields, hn, hds]⟩

/-- The evaluation loop of `filter` when every evaluation yields a boolean: it collects
the positions of the rows on which the evaluator is true. -/
theorem filterRows_bool (cel : Cel) (ds : List Decl) (w : String) (ev : GoMap → Bool) :
    ∀ (rows : List GoValue) (index : Nat) (ret : List Nat),
      (∀ r ∈ rows, r.isStruct) →
      (∀ r ∈ rows, ∀ m, ToMap r = some m → cel.Eval ds w m = .ok (.bool (ev m))) →
      filterRows cel ds w index rows ret =
        .ok (ret ++ matchingPositions (onProjection ev) index rows) := by
  intro rows
  induction rows with
  | nil => intro index ret _ _; simp [filterRows, matchingPositions]
  | cons r rest ih =>
    intro index ret hrec hev
    obtain ⟨n, fs, hr⟩ := hrec r (by simp)
    obtain ⟨m, hm⟩ := ToMap_total n fs r hr
    have he := hev r (by simp) m hm
    have hp : onProjection ev r = ev m := by simp [onProjection, hm]
    unfold filterRows
    simp only [hm, he]
    rw [ih (index + 1) _ (fun q hq => hrec q (by simp [hq]))
      (fun q hq => hev q (by simp [hq]))]
    cases hb : ev m <;> simp [matchingPositions, hp, hb]

/-- The loop of `Select` on the positions of the matching rows returns these rows. -/
theorem selectRows_matching (p : GoValue → Bool) :
    ∀ (suffix pre ret : List GoValue),
      selectRows (pre ++ suffix) (matchingPositions p pre.length suffix) ret =
        some (ret ++ suffix.filter p) := by
  intro suffix
  induction suffix with
  | nil => intro pre ret; simp [matchingPositions, selectRows]
  | cons r rest ih =>
    intro pre ret
    have hstep := ih (pre ++ [r])
    simp only [List.append_assoc, List.singleton_append, List.length_append,
      List.length_singleton] at hstep
    by_cases hp : p r = true
    · simp only [matchingPositions, hp, ↓reduceIte, selectRows, List.filter_cons_of_pos]
      have hget : (pre ++ r :: rest)[pre.length]? = some r := by
        rw [List.getElem?_append_right (Nat.le_refl _)]
        simp
      simp only [hget]
      rw [hstep]
      simp
    · simp only [matchingPositions, hp, Bool.false_eq_true, ↓reduceIte]
      rw [hstep]
      simp [hp]

/-- C7: on a table whose stored rows are struct values, when the engine accepts the
expression and the evaluation of every stored record's projection (`ToMap`, which exists) yields the
boolean of a row evaluator, `Select` returns no error and exactly the stored rows on
which the evaluator is true, in insertion order, one per matching position. -/
theorem select_returns_matching_rows (cel : Cel) (st : StructTable)
    (whereExpr : String) (orderBy : List Order)
    (offset len : Int) (ev : GoMap → Bool) (ds : List Decl)
    (hrows : ∀ r ∈ st.dataSet, r.isStruct) (hds : st.declarations = some ds)
    (henv : cel.NewEnv ds = none) (hcomp : cel.Compile ds whereExpr = false)
    (hprg : cel.Program ds whereExpr = none)
    (hev : ∀ r ∈ st.dataSet, ∀ m, ToMap r = some m →
      cel.Eval ds whereExpr m = .ok (.bool (ev m))) :
    st.Select cel whereExpr orderBy offset len =
      .ok (st.dataSet.filter (onProjection ev)) ∧
    ∀ r ∈ st.dataSet, ∃ m, ToMap r = some m := by
  refine ⟨?_, fun r hr => by
    obtain ⟨n, fs, h⟩ := hrows r hr
    exact ToMap_total n fs r h⟩
  have hf : st.filter cel whereExpr =
      .ok (matchingPositions (onProjection ev) 0 st.dataSet) := by
    simp only [StructTable.filter, hds, henv, hcomp, hprg]
    simpa using filterRows_bool cel ds whereExpr ev st.dataSet 0 [] hrows hev
  have hsel := selectRows_matching (onProjection ev) st.dataSet [] []
  simp only [List.nil_append, List.length_nil] at hsel
  simp [StructTable.Select, hf, hsel]

/-- C7 at the table of `demo.Pair` holding `{1, 10}` and `{2, 20}`, with the evaluator
"`A` is 2". -/
theorem select_returns_matching_rows_witness :
    pairTable.Select (celWith fun m => .bool (entryIs "A" (.int 2) m)) "A == 2" [] 0 0 =
      .ok (pairTable.dataSet.filter (onProjection (entryIs "A" (.int 2)))) ∧
    ∀ r ∈ pairTable.dataSet, ∃ m, ToMap r = some m :=
  select_returns_matching_rows (celWith fun m => .bool (entryIs "A" (.int 2) m)) pairTable
    "A == 2" [] 0 0 (entryIs "A" (.int 2))
    [⟨"A", some .int⟩, ⟨"B", some .int⟩] pairTable_isStruct (by decide) rfl rfl rfl
    (fun _ _ _ _ => rfl)

/-! ## C8: a result that is not a boolean -/

/-- C8, as stated, fails on a table without rows: the expression is accepted, its
result is never a boolean, and yet `Select` returns the empty result and no error,
because the kind of the result is only looked at inside the loop over the rows. -/
theorem select_non_boolean_on_empty_table :
    pairTableEmpty.WellFormed "demo.Pair" [fieldA, fieldB] ∧
    pairTableEmpty.declarations = some [⟨"A", some .int⟩, ⟨"B", some .int⟩] ∧
    (∀ m, (celWith fun _ => .other 0).Eval [⟨"A", some .int⟩, ⟨"B", some .int⟩] "A + B" m =
      .ok (.other 0)) ∧
    pairTableEmpty.Select (celWith fun _ => .other 0) "A + B" [] 0 0 = .ok [] ∧
    ¬ ∃ e, pairTableEmpty.Select (celWith fun _ => .other 0) "A + B" [] 0 0 = .error e := by
  refine ⟨⟨rfl, by decide, by simp [pairTableEmpty]⟩, by decide, fun _ => rfl, by decide, ?_⟩
  rintro ⟨e, he⟩
  have h : pairTableEmpty.Select (celWith fun _ => .other 0) "A + B" [] 0 0 = .ok [] := by
    decide
  rw [h] at he
  cases he

/-- C8, amended: on a table that holds at least one row, its rows being struct values,
when the
engine accepts the expression and the evaluation of every stored record's projection
yields a value that is not a boolean, `Select` fails with an error that wraps
`ErrEvaluationError` and carries the expression, and returns no records. -/
theorem select_non_boolean_fails (cel : Cel) (st : StructTable)
    (whereExpr : String) (orderBy : List Order)
    (offset len : Int) (ds : List Decl)
    (hrows : ∀ r ∈ st.dataSet, r.isStruct) (hds : st.declarations = some ds)
    (henv : cel.NewEnv ds = none) (hcomp : cel.Compile ds whereExpr = false)
    (hprg : cel.Program ds whereExpr = none) (hne : st.dataSet ≠ [])
    (hev : ∀ r ∈ st.dataSet, ∀ m, ToMap r = some m →
      ∃ id, cel.Eval ds whereExpr m = .ok (.other id)) :
    st.Select cel whereExpr orderBy offset len =
      .error (Errorf ErrEvaluationError
        (" : expression do not yield boolean result [" ++ whereExpr ++ "]")) ∧
    (Errorf ErrEvaluationError
      (" : expression do not yield boolean result [" ++ whereExpr ++ "]")).Is
        ErrEvaluationError = true := by
  refine ⟨?_, Errorf_Is _ _⟩
  cases hset : st.dataSet with
  | nil => exact absurd hset hne
  | cons r rest =>
    have hr : r ∈ st.dataSet := by rw [hset]; simp
    obtain ⟨n, fs, hrec⟩ := hrows r hr
    obtain ⟨m, hm⟩ := ToMap_total n fs r hrec
    obtain ⟨id, hid⟩ := hev r hr m hm
    simp [StructTable.Select, StructTable.filter, hds, henv, hcomp, hprg, hset, filterRows,
      hm, hid]

/-- C8, amended, at the table of `demo.Pair` holding `{1, 10}` and `{2, 20}`. -/
theorem select_non_boolean_fails_witness :
    pairTable.Select (celWith fun _ => .other 0) "A + B" [] 0 0 =
      .error (Errorf ErrEvaluationError
        (" : expression do not yield boolean result [" ++ "A + B" ++ "]")) ∧
    (Errorf ErrEvaluationError
      (" : expression do not yield boolean result [" ++ "A + B" ++ "]")).Is
        ErrEvaluationError = true :=
  select_non_boolean_fails (celWith fun _ => .other 0) pairTable
    "A + B" [] 0 0 [⟨"A", some .int⟩, ⟨"B", some .int⟩]
    pairTable_isStruct (by decide) rfl rfl rfl (by decide) (fun _ _ _ _ => ⟨0, rfl⟩)

/-! ## C9: values that `Insert` refuses -/

/-- C9 fails at the nil value: `reflect.TypeOf(nil)` is nil and `Insert` panics on
`dataType.Kind()` instead of returning `ErrCanNotInsertNoStructType`; the table is
unchanged. -/
theorem insert_nil_panics (st : StructTable) : st.Insert nilValue = (st, .panic) := by
  rfl

/-- Values other than nil: a value that is not a struct (a pointer to a struct
included) is refused with `ErrCanNotInsertNoStructType`, a struct whose type
name differs from the table's with `ErrIncompatibleStruct`; the table is unchanged. -/
theorem insert_refuses_other_types (st : StructTable) (data : GoValue) (t : GoType)
    (ht : data.typ = some t) :
    (t.Kind ≠ Kind.struct → st.Insert data = (st, .error ErrCanNotInsertNoStructType)) ∧
    (t.Kind = Kind.struct → t.Str ≠ st.MetaType.Str →
      st.Insert data = (st, .error ErrIncompatibleStruct)) ∧
    (∀ e, GoType.Kind (.ptr e) ≠ Kind.struct) := by
  refine ⟨?_, ?_, ?_⟩
  · intro hk
    simp [StructTable.Insert, ht, hk]
  · intro hk hs
    simp [StructTable.Insert, ht, hk, hs]
  · intro e
    simp [GoType.Kind]

/-- A pointer to `demo.Pair` is refused. -/
theorem insert_refuses_other_types_witness :
    pairTable.Insert pairPointer = (pairTable, .error ErrCanNotInsertNoStructType) :=
  (insert_refuses_other_types pairTable pairPointer (.ptr pairType) rfl).1 (by decide)

/-! ## C10: an empty unique-column name -/

/-- The failing input of C10: for the list `[""]` `NewStructTable` returns
`ErrUniquesColumnNameNotExist`, which neither is nor wraps `ErrColumnNameEmpty`, and is
the very error returned for the name `Q` that matches no field. -/
theorem empty_unique_name_reported_as_not_exist :
    NewStructTable DummyStruct [""] = .error ErrUniquesColumnNameNotExist ∧
    NewStructTable pairType [""] = .error ErrUniquesColumnNameNotExist ∧
    ErrUniquesColumnNameNotExist ≠ ErrColumnNameEmpty ∧
    ErrUniquesColumnNameNotExist.Is ErrColumnNameEmpty = false ∧
    NewStructTable pairType ["Q"] = .error ErrUniquesColumnNameNotExist := by
  decide

/-- The loop of `columnsExist` stops at an empty name with `ErrColumnNameEmpty` when the
names before it pass `columnExist`. -/
theorem columnsExistLoop_empty (st : StructTable) (name : String)
    (fields : List StructField) (hm : st.MetaType = .struct name fields)
    (post : List String) :
    ∀ pre : List String, (∀ k ∈ pre, st.columnExist k = .ok ()) →
      st.columnsExistLoop (pre ++ "" :: post) = .error ErrColumnNameEmpty := by
  intro pre
  induction pre with
  | nil => intro _; simp [StructTable.columnsExistLoop]
  | cons k rest ih =>
    intro h
    have hk := h k (by simp)
    have hne : ¬ k.length = 0 := by
      intro hl
      have hk0 := (string_length_zero_iff k).mp hl
      rcases columnExist_struct st name fields hm k with ⟨_, ⟨f, _, hf⟩, _⟩ | ⟨herr, _⟩
      · exact f.nonempty (hf.trans hk0)
      · rw [hk] at herr
        cases herr
    simp only [List.cons_append, StructTable.columnsExistLoop, hne, ↓reduceIte, hk]
    exact ih (fun x hx => h x (by simp [hx]))

/-- C10 fails on the code: for a struct type, given directly or as a pointer to it, and a
unique-column list whose first invalid entry is the empty string, `columnsExist` does
return `ErrColumnNameEmpty`, the error documented for an empty column name, but
`validate` discards it and `NewStructTable` fails with `ErrUniquesColumnNameNotExist`:
an error that wraps `ErrColumnNameNotExist` and `ErrInvalidColumnName`, does not wrap
`ErrColumnNameEmpty`, and is the one returned for a name that matches no visible
field. -/
theorem empty_unique_name_fails (name : String) (fields : List StructField)
    (uniques pre post : List String) (hsplit : uniques = pre ++ "" :: post)
    (hpre : ColumnsVisible fields pre) :
    (StructTable.mk (.struct name fields) uniques []).columnsExist uniques =
      .error ErrColumnNameEmpty ∧
    NewStructTable (.struct name fields) uniques = .error ErrUniquesColumnNameNotExist ∧
    NewStructTable (.ptr (.struct name fields)) uniques =
      .error ErrUniquesColumnNameNotExist ∧
    ErrUniquesColumnNameNotExist.Is ErrColumnNameNotExist = true ∧
    ErrUniquesColumnNameNotExist.Is ErrInvalidColumnName = true ∧
    ErrUniquesColumnNameNotExist.Is ErrColumnNameEmpty = false := by
  have hpre2 : ∀ k ∈ pre, (StructTable.mk (.struct name fields) uniques []).columnExist k =
      .ok () := by
    intro k hk
    rcases columnExist_struct ⟨.struct name fields, uniques, []⟩ name fields rfl k with
      ⟨h1, _⟩ | ⟨_, h2⟩
    · exact h1
    · exact absurd (hpre k hk) h2
  have hloop := columnsExistLoop_empty ⟨.struct name fields, uniques, []⟩ name fields rfl
    post pre hpre2
  rw [← hsplit] at hloop
  have hlen : uniques.length > 0 := by simp [hsplit]
  have hcols : (StructTable.mk (.struct name fields) uniques []).columnsExist uniques =
      .error ErrColumnNameEmpty := by
    simp [StructTable.columnsExist, hlen, hloop]
  have hnot : ¬ ColumnsVisible fields uniques := by
    intro hv
    obtain ⟨⟨f, _, hf⟩, _⟩ := hv "" (by simp [hsplit])
    exact f.nonempty hf
  obtain ⟨_, h2, _, h4⟩ := NewStructTable_struct_cases name fields uniques
  exact ⟨hcols, h2.mpr hnot, h4.mpr hnot, by decide, by decide, by decide⟩

/-- C10 on the code, at `demo.Pair` and the list `["A", "", "Q"]`. -/
theorem empty_unique_name_fails_witness :
    (StructTable.mk (.struct "demo.Pair" [fieldA, fieldB]) ["A", "", "Q"] []).columnsExist
      ["A", "", "Q"] = .error ErrColumnNameEmpty ∧
    NewStructTable (.struct "demo.Pair" [fieldA, fieldB]) ["A", "", "Q"] =
      .error ErrUniquesColumnNameNotExist ∧
    NewStructTable (.ptr (.struct "demo.Pair" [fieldA, fieldB])) ["A", "", "Q"] =
      .error ErrUniquesColumnNameNotExist ∧
    ErrUniquesColumnNameNotExist.Is ErrColumnNameNotExist = true ∧
    ErrUniquesColumnNameNotExist.Is ErrInvalidColumnName = true ∧
    ErrUniquesColumnNameNotExist.Is ErrColumnNameEmpty = false :=
  empty_unique_name_fails "demo.Pair" [fieldA, fieldB] ["A", "", "Q"] ["A"] ["Q"] rfl
    (by
      intro k hk
      simp only [List.mem_singleton] at hk
      subst hk
      exact ⟨⟨fieldA, by decide, rfl⟩, 65, by decide, by decide, by decide⟩)

/-! ## C11: a record type that is not a struct -/

/-- C11: for every type that, after resolving one level of pointer, is not a struct
type, and for every unique-column list, `NewStructTable` returns no table and the error
`ErrMetaNotAStruct`; no column name is looked up on the type (a lookup on a type that
is not a struct would panic). -/
theorem NewStructTable_not_a_struct (metaType : GoType) (uniques : List String)
    (h : metaType.resolved.Kind ≠ Kind.struct) :
    NewStructTable metaType uniques = .error ErrMetaNotAStruct ∧
    (∀ k, metaType.resolved.FieldByName k = none) ∧
    (StructTable.mk metaType.resolved uniques []).validate = .error ErrMetaNotAStruct := by
  have hv : (StructTable.mk metaType.resolved uniques []).validate =
      .error ErrMetaNotAStruct := by
    simp [StructTable.validate, h]
  refine ⟨?_, ?_, hv⟩
  · cases metaType with
    | struct n fs => simp [GoType.resolved, GoType.Kind] at h
    | ptr e =>
      simp only [GoType.resolved] at hv
      simp [NewStructTable, GoType.Kind, GoType.Elem, hv]
    | other k str h1 h2 =>
      simp only [GoType.resolved] at hv
      simp [NewStructTable, GoType.Kind, h2, hv]
  · intro k
    cases hr : metaType.resolved with
    | struct n fs => rw [hr] at h; simp [GoType.Kind] at h
    | ptr e => rfl
    | other k str h1 h2 => rfl

/-- C11 at the type `**demo.Pair` with a valid and an invalid unique column. -/
theorem NewStructTable_not_a_struct_witness :
    NewStructTable (.ptr (.ptr pairType)) ["A", "nope"] = .error ErrMetaNotAStruct ∧
    (∀ k, (GoType.ptr (.ptr pairType)).resolved.FieldByName k = none) ∧
    (StructTable.mk (GoType.ptr (.ptr pairType)).resolved ["A", "nope"] []).validate =
      .error ErrMetaNotAStruct :=
  NewStructTable_not_a_struct (.ptr (.ptr pairType)) ["A", "nope"] (by decide)

/-! ## C12: an evaluation error aborts the query -/

/-- The evaluation loop of `filter` returns an error as soon as the evaluation fails on
some row (or yields a value that is not a boolean on an earlier row). -/
theorem filterRows_error (cel : Cel) (ds : List Decl) (w : String) :
    ∀ (rows : List GoValue) (index : Nat) (ret : List Nat),
      (∀ r ∈ rows, r.isStruct) →
      (∃ r ∈ rows, ∀ m, ToMap r = some m → ∃ err, cel.Eval ds w m = .error err) →
      ∃ e, filterRows cel ds w index rows ret = .error e := by
  intro rows
  induction rows with
  | nil => intro _ _ _ ⟨r, hr, _⟩; cases hr
  | cons r0 rest ih =>
    intro index ret hrec ⟨r, hr, hfail⟩
    obtain ⟨n, fs, h0⟩ := hrec r0 (by simp)
    obtain ⟨m, hm⟩ := ToMap_total n fs r0 h0
    unfold filterRows
    simp only [hm]
    cases he : cel.Eval ds w m with
    | error err => exact ⟨err, rfl⟩
    | ok v =>
      cases v with
      | other id => exact ⟨_, rfl⟩
      | bool b =>
        simp only
        apply ih (index + 1) _ (fun q hq => hrec q (by simp [hq]))
        rcases List.mem_cons.mp hr with rfl | hr
        · obtain ⟨err, herr⟩ := hfail m hm
          rw [he] at herr
          cases herr
        · exact ⟨r, hr, hfail⟩

/-- C12: on a table whose stored rows are struct values and for an expression that the
engine accepts, if the evaluation fails on at least one stored record, `Select` returns
an error (and with it no record at all). -/
theorem select_eval_error_aborts (cel : Cel) (st : StructTable) (whereExpr : String)
    (orderBy : List Order) (offset len : Int) (ds : List Decl) (r : GoValue)
    (hrows : ∀ q ∈ st.dataSet, q.isStruct) (hds : st.declarations = some ds)
    (henv : cel.NewEnv ds = none) (hcomp : cel.Compile ds whereExpr = false)
    (hprg : cel.Program ds whereExpr = none) (hr : r ∈ st.dataSet)
    (hfail : ∀ m, ToMap r = some m → ∃ err, cel.Eval ds whereExpr m = .error err) :
    ∃ e, st.Select cel whereExpr orderBy offset len = .error e := by
  obtain ⟨e, he⟩ := filterRows_error cel ds whereExpr st.dataSet 0 [] hrows ⟨r, hr, hfail⟩
  exact ⟨e, by simp [StructTable.Select, StructTable.filter, hds, henv, hcomp, hprg, he]⟩

/-- C12 at the table of `demo.Pair` holding `{1, 10}` and `{2, 20}`, with an evaluation
that succeeds on the first row and fails on the second. -/
theorem select_eval_error_aborts_witness :
    ∃ e, pairTable.Select (celFailingOn "A" (.int 2)) "A < B" [] 0 0 = .error e :=
  select_eval_error_aborts (celFailingOn "A" (.int 2)) pairTable "A < B" [] 0 0
    [⟨"A", some .int⟩, ⟨"B", some .int⟩] (pair 2 20) pairTable_isStruct (by decide) rfl rfl rfl
    (by decide) (by
      intro m hm
      have : m = [("A", .int 2), ("B", .int 20)] := by
        have h2 : ToMap (pair 2 20) = some [("A", .int 2), ("B", .int 20)] := by decide
        rw [h2] at hm
        exact (Option.some.inj hm).symm
      subst this
      exact ⟨.New "no such overload", rfl⟩)

/-! ## C13: an expression that does not compile -/

/-- C13 fails on the code: when the expression does not compile, or the program cannot
be built, `filter` calls `log.Fatalf`, which ends the process; `Select` returns nothing
to its caller. -/
theorem select_compile_failure_is_fatal (cel : Cel) (st : StructTable) (whereExpr : String)
    (orderBy : List Order) (offset len : Int) (ds : List Decl)
    (hds : st.declarations = some ds) (henv : cel.NewEnv ds = none)
    (hfail : cel.Compile ds whereExpr = true ∨ ∃ err, cel.Program ds whereExpr = some err) :
    st.Select cel whereExpr orderBy offset len = .fatal ∧
    ¬ ∃ e, st.Select cel whereExpr orderBy offset len = .error e := by
  have h : st.Select cel whereExpr orderBy offset len = .fatal := by
    by_cases hc : cel.Compile ds whereExpr = true
    · simp [StructTable.Select, StructTable.filter, hds, henv, hc]
    · rcases hfail with hc2 | ⟨err, herr⟩
      · exact absurd hc2 hc
      · simp [StructTable.Select, StructTable.filter, hds, henv, hc, herr]
  refine ⟨h, ?_⟩
  rintro ⟨e, he⟩
  rw [h] at he
  cases he

/-- C13 on the table of `demo.Pair` and an engine that rejects the expression. -/
theorem select_compile_failure_is_fatal_witness :
    pairTable.Select celRejecting "A ==" [] 0 0 = .fatal ∧
    ¬ ∃ e, pairTable.Select celRejecting "A ==" [] 0 0 = .error e :=
  select_compile_failure_is_fatal celRejecting pairTable "A ==" [] 0 0
    [⟨"A", some .int⟩, ⟨"B", some .int⟩] (by decide) rfl (Or.inl rfl)

/-! ## C14: `orderBy`, `offset` and `len` are not applied -/

/-- C14: for every table and every expression, two calls of `Select` that differ only in
`orderBy`, `offset` and `len` return the same result: the same records in the same
order, or the same error. -/
theorem select_ignores_order_offset_len (cel : Cel) (st : StructTable) (whereExpr : String)
    (orderBy1 orderBy2 : List Order) (offset1 len1 offset2 len2 : Int) :
    st.Select cel whereExpr orderBy1 offset1 len1 =
      st.Select cel whereExpr orderBy2 offset2 len2 := by
  unfold StructTable.Select
  rfl

/-! ## C18: `Update` and `Delete` do nothing -/

/-- C18: for every table, every set list and every where string, `Update` returns
`(0, nil)` and `Delete` returns `(0, nil)`, and neither changes the table's row
sequence, record type or unique-column list. -/
theorem update_delete_do_nothing (st : StructTable) (set : List KeyValue)
    (whereExpr : String) :
    (st.Update set whereExpr).2 = .ok 0 ∧ (st.Delete whereExpr).2 = .ok 0 ∧
    (st.Update set whereExpr).1 = st ∧ (st.Delete whereExpr).1 = st ∧
    (st.Update set whereExpr).1.dataSet = st.dataSet ∧
    (st.Update set whereExpr).1.MetaType = st.MetaType ∧
    (st.Update set whereExpr).1.Uniques = st.Uniques ∧
    (st.Delete whereExpr).1.dataSet = st.dataSet ∧
    (st.Delete whereExpr).1.MetaType = st.MetaType ∧
    (st.Delete whereExpr).1.Uniques = st.Uniques := by
  simp [StructTable.Update, StructTable.Delete]

/-! ## C15: `StructShallowEquals` -/

theorem shallowFieldEquals_typed (t : FieldType) (x y : FieldValue)
    (hx : x.hasType t = true) (hy : y.hasType t = true) :
    shallowFieldEquals t ⟨t, x⟩ ⟨t, y⟩ =
      .ok (if GetBaseKindOfType t = BaseKindOther then true else x.goEq y) := by
  obtain ⟨k, str⟩ := t
  by_cases hs : str = "time.Time" <;> cases x <;> cases y <;> cases k <;>
    simp [FieldValue.hasType, GetBaseKindOfType, hs] at hx hy <;>
    simp [shallowFieldEquals, GetBaseKindOfType, FieldValue.goEq, Value.getBool, Value.getInt,
      Value.getUint, Value.getFloat, Value.getString, Value.getTime, Kind.isInt, Kind.isUint,
      Kind.isFloat, hs]

/-- One turn of the loop of `StructShallowEquals` at a position where the two types have
the same field: the function returns false when the field is visible, of supported kind
and the two values differ under the kind's rule, and goes on otherwise. -/
theorem shallowLoop_step (n1 n2 : String) (fields1 fields2 : List StructField)
    (a b : GoValue) (ha : IsRecord n1 fields1 a) (hb : IsRecord n2 fields2 b)
    (k : Nat) (f : StructField) (rest : List StructField)
    (h1 : fields1[k]? = some f) (h2 : fields2[k]? = some f) :
    shallowLoop a b fields2 k (f :: rest) =
      if f.visible ∧ f.supported ∧ a.sameOn b k = false then .ok false
      else shallowLoop a b fields2 (k + 1) rest := by
  obtain ⟨x, hx, hxt, hfa⟩ := record_field n1 fields1 a ha k f h1
  obtain ⟨y, hy, hyt, hfb⟩ := record_field n2 fields2 b hb k f h2
  obtain ⟨c, hc⟩ := headByte_some f.Name f.nonempty
  have hsame : a.sameOn b k = x.goEq y := by simp [GoValue.sameOn, hx, hy]
  have hvis : f.visible ↔ (65 ≤ c ∧ c ≤ 90) := by
    unfold StructField.visible
    constructor
    · rintro ⟨d, hd, hr⟩
      rw [hc] at hd
      simp only [Option.some.injEq] at hd
      subst hd
      exact hr
    · intro hr
      exact ⟨c, hc, hr⟩
  simp only [shallowLoop, h2, ne_eq, not_true_eq_false, ↓reduceIte, hc, hfa, hfb,
    shallowFieldEquals_typed f.Typ x y hxt hyt, hsame, hvis, StructField.supported]
  by_cases hr : 65 ≤ c ∧ c ≤ 90
  · have hn : ¬ (c < 65 ∨ c > 90) := by omega
    by_cases hk : GetBaseKindOfType f.Typ = BaseKindOther
    · simp [hn, hr, hk]
    · cases hg : x.goEq y <;> simp [hn, hr, hk]
  · have hn : c < 65 ∨ c > 90 := by omega
    simp [hn, hr]

/-- The loop of `StructShallowEquals` over positions at which the two types have the
same fields: it never panics, and returns true exactly when the two values agree on
every visible field of supported kind. -/
theorem shallowLoop_spec (n1 n2 : String) (fields1 fields2 : List StructField)
    (a b : GoValue) (ha : IsRecord n1 fields1 a) (hb : IsRecord n2 fields2 b) :
    ∀ (fs : List StructField) (k : Nat),
      (∀ m f, fs[m]? = some f → fields1[k + m]? = some f ∧ fields2[k + m]? = some f) →
      ∃ res, shallowLoop a b fields2 k fs = .ok res ∧
        (res = true ↔ ∀ m f, fs[m]? = some f → f.visible → f.supported →
          a.sameOn b (k + m) = true) := by
  intro fs
  induction fs with
  | nil => intro k _; exact ⟨true, rfl, by simp⟩
  | cons f rest ih =>
    intro k h
    obtain ⟨h1, h2⟩ : fields1[k]? = some f ∧ fields2[k]? = some f := by
      simpa using h 0 f (by simp)
    have hshift : ∀ m g, rest[m]? = some g →
        fields1[k + 1 + m]? = some g ∧ fields2[k + 1 + m]? = some g := by
      intro m g hg
      have := h (m + 1) g (by simpa using hg)
      rwa [show k + (m + 1) = k + 1 + m by omega] at this
    rw [shallowLoop_step n1 n2 fields1 fields2 a b ha hb k f rest h1 h2]
    by_cases hcond : f.visible ∧ f.supported ∧ a.sameOn b k = false
    · refine ⟨false, by simp [hcond], ?_⟩
      simp only [Bool.false_eq_true, false_iff, not_forall]
      refine ⟨0, f, by simp, hcond.1, hcond.2.1, ?_⟩
      simp [hcond.2.2]
    · obtain ⟨res, hres, hiff⟩ := ih (k + 1) hshift
      refine ⟨res, by simp [hcond, hres], ?_⟩
      rw [hiff]
      constructor
      · intro hall m g hg hv hs
        cases m with
        | zero =>
          simp only [List.getElem?_cons_zero, Option.some.injEq] at hg
          subst hg
          by_contra hne
          exact hcond ⟨hv, hs, by simpa using hne⟩
        | succ j =>
          have := hall j g (by simpa using hg) hv hs
          rwa [show k + 1 + j = k + (j + 1) by omega] at this
      · intro hall m g hg hv hs
        have := hall (m + 1) g (by simpa using hg) hv hs
        rwa [show k + (m + 1) = k + 1 + m by omega] at this

/-- The loop of `StructShallowEquals` returns false when the field lists of the two
types have a common beginning and then differ in the name or the kind of a field. -/
theorem shallowLoop_differ (n1 n2 : String) (fields1 fields2 : List StructField)
    (a b : GoValue) (ha : IsRecord n1 fields1 a) (hb : IsRecord n2 fields2 b)
    (f1 f2 : StructField) (post : List StructField)
    (hdiff : f1.Name ≠ f2.Name ∨ f1.Typ.kind ≠ f2.Typ.kind) :
    ∀ (pre : List StructField) (k : Nat),
      (∀ m f, pre[m]? = some f → fields1[k + m]? = some f ∧ fields2[k + m]? = some f) →
      fields2[k + pre.length]? = some f2 →
      shallowLoop a b fields2 k (pre ++ f1 :: post) = .ok false := by
  intro pre
  induction pre with
  | nil =>
    intro k _ h2
    simp only [List.length_nil, Nat.add_zero] at h2
    simp only [List.nil_append, shallowLoop, h2]
    rcases hdiff with hn | hk
    · simp [hn]
    · by_cases hn : f1.Name = f2.Name <;> simp [hn, hk]
  | cons f rest ih =>
    intro k h h2
    obtain ⟨h1, h2f⟩ : fields1[k]? = some f ∧ fields2[k]? = some f := by
      simpa using h 0 f (by simp)
    have hshift : ∀ m g, rest[m]? = some g →
        fields1[k + 1 + m]? = some g ∧ fields2[k + 1 + m]? = some g := by
      intro m g hg
      have := h (m + 1) g (by simpa using hg)
      rwa [show k + (m + 1) = k + 1 + m by omega] at this
    simp only [List.cons_append]
    rw [shallowLoop_step n1 n2 fields1 fields2 a b ha hb k f _ h1 h2f]
    by_cases hcond : f.visible ∧ f.supported ∧ a.sameOn b k = false
    · simp [hcond]
    · simp only [hcond, ↓reduceIte]
      apply ih (k + 1) hshift
      rw [← h2]
      congr 1
      simp only [List.length_cons]
      omega

/-- The function `StructShallowEquals` on two records of one struct type: it never
panics, and returns true exactly when the two records agree on every visible field of
supported kind. -/
theorem StructShallowEquals_same_type (name : String) (fields : List StructField)
    (a b : GoValue) (ha : IsRecord name fields a) (hb : IsRecord name fields b) :
    ∃ res, StructShallowEquals a b = .ok res ∧
      (res = true ↔ ∀ i f, fields[i]? = some f → f.visible → f.supported →
        a.sameOn b i = true) := by
  obtain ⟨res, hres, hiff⟩ := shallowLoop_spec name name fields fields a b ha hb fields 0
    (by simp)
  refine ⟨res, ?_, ?_⟩
  · simp [StructShallowEquals, ha.1, hb.1, GoType.Kind, GoType.Str, GoType.Fields, hres]
  · simpa using hiff

/-- C15, as stated, fails in its last sentence: the values `U{X: "a"}` of two different
struct types that are both called `demo.U` (the field `X` is a `string` in one and a
`demo.Name`, of kind string, in the other) are reported equal. -/
theorem shallow_equals_across_types :
    valueU.typ ≠ valueU2.typ ∧
    IsRecord "demo.U" [fieldX] valueU ∧ IsRecord "demo.U" [fieldXNamed] valueU2 ∧
    StructShallowEquals valueU valueU2 = .ok true := by
  refine ⟨by decide, ⟨rfl, by decide⟩, ⟨rfl, by decide⟩, by decide⟩

/-- C15, amended: for any two records `a`, `b` of the same struct type,
`StructShallowEquals` returns true if and only if every visible field (first byte in
`'A'..'Z'`) of supported kind has equal values in the two records under the kind's
rule; the values of the other fields never change the result (records `a2`, `b2` that
agree with `a`, `b` on the visible fields of supported kind give the same result).  For
two struct values `x`, `y` whose types differ in the type name, in the number of fields,
or in the name or kind of the first field in which their field lists differ, it
returns false. -/
theorem shallow_equals_spec (name : String) (fields : List StructField)
    (a b a2 b2 : GoValue) (n1 n2 : String) (fields1 fields2 : List StructField)
    (x y : GoValue)
    (ha : IsRecord name fields a) (hb : IsRecord name fields b)
    (ha2 : IsRecord name fields a2) (hb2 : IsRecord name fields b2)
    (hsa : ∀ (i : Nat) (f : StructField), fields[i]? = some f → f.visible → f.supported →
      a2.vals[i]? = a.vals[i]?)
    (hsb : ∀ (i : Nat) (f : StructField), fields[i]? = some f → f.visible → f.supported →
      b2.vals[i]? = b.vals[i]?)
    (hx : IsRecord n1 fields1 x) (hy : IsRecord n2 fields2 y)
    (hdiff : n1 ≠ n2 ∨ fields1.length ≠ fields2.length ∨
      ∃ pre f1 f2 post1 post2, fields1 = pre ++ f1 :: post1 ∧ fields2 = pre ++ f2 :: post2 ∧
        (f1.Name ≠ f2.Name ∨ f1.Typ.kind ≠ f2.Typ.kind)) :
    (∃ res, StructShallowEquals a b = .ok res ∧
      (res = true ↔ ∀ i f, fields[i]? = some f → f.visible → f.supported →
        a.sameOn b i = true)) ∧
    StructShallowEquals a2 b2 = StructShallowEquals a b ∧
    StructShallowEquals x y = .ok false := by
  obtain ⟨res, hres, hiff⟩ := StructShallowEquals_same_type name fields a b ha hb
  obtain ⟨res2, hres2, hiff2⟩ := StructShallowEquals_same_type name fields a2 b2 ha2 hb2
  refine ⟨⟨res, hres, hiff⟩, ?_, ?_⟩
  · have hsame : ∀ i f, fields[i]? = some f → f.visible → f.supported →
        a2.sameOn b2 i = a.sameOn b i := by
      intro i f hf hv hs
      simp [GoValue.sameOn, hsa i f hf hv hs, hsb i f hf hv hs]
    have hequiv : res2 = true ↔ res = true := by
      rw [hiff, hiff2]
      constructor
      · intro h i f hf hv hs
        rw [← hsame i f hf hv hs]
        exact h i f hf hv hs
      · intro h i f hf hv hs
        rw [hsame i f hf hv hs]
        exact h i f hf hv hs
    rw [hres, hres2]
    congr 1
    cases res <;> cases res2 <;> simp_all
  · by_cases hn : n1 = n2
    · by_cases hl : fields1.length = fields2.length
      · rcases hdiff with h | h | ⟨pre, f1, f2, post1, post2, e1, e2, hd⟩
        · exact absurd hn h
        · exact absurd hl h
        · have hloop := shallowLoop_differ n1 n2 fields1 fields2 x y hx hy f1 f2 post1 hd pre 0
            (by
              intro m f hm
              have hlt : m < pre.length := by
                by_contra hge
                rw [List.getElem?_eq_none (by omega)] at hm
                cases hm
              rw [Nat.zero_add, e1, e2, List.getElem?_append_left hlt,
                List.getElem?_append_left hlt]
              exact ⟨hm, hm⟩)
            (by
              rw [Nat.zero_add, e2, List.getElem?_append_right (Nat.le_refl _)]
              simp)
          rw [← e1] at hloop
          simp [StructShallowEquals, hx.1, hy.1, GoType.Kind, GoType.Str, GoType.Fields, hn,
            hl, hloop]
      · simp [StructShallowEquals, hx.1, hy.1, GoType.Kind, GoType.Str, GoType.Fields, hn, hl]
    · simp [StructShallowEquals, hx.1, hy.1, GoType.Kind, GoType.Str, GoType.Fields, hn]

/-- C15, amended, at values of `demo.V` that agree on the visible integer `A` and differ
on the unexported `b` and on the pointer `P`, and at the values of the two types called
`demo.T`, whose first fields are `X` and `Z`. -/
theorem shallow_equals_spec_witness :
    (∃ res, StructShallowEquals (valueV 1 5 0) (valueV 1 6 1) = .ok res ∧
      (res = true ↔ ∀ i f,
        [({ Name := "A", Typ := ⟨.int, "int"⟩ } : StructField),
          { Name := "b", Typ := ⟨.int, "int"⟩ }, { Name := "P", Typ := ⟨.ptr, "*int"⟩ }][i]? =
          some f → f.visible → f.supported →
        (valueV 1 5 0).sameOn (valueV 1 6 1) i = true)) ∧
    StructShallowEquals (valueV 1 7 2) (valueV 1 8 3) =
      StructShallowEquals (valueV 1 5 0) (valueV 1 6 1) ∧
    StructShallowEquals valueT valueT2 = .ok false :=
  shallow_equals_spec "demo.V" _ (valueV 1 5 0) (valueV 1 6 1) (valueV 1 7 2) (valueV 1 8 3)
    "demo.T" "demo.T" [fieldX, fieldW] [fieldZ, fieldX] valueT valueT2
    ⟨rfl, by decide⟩ ⟨rfl, by decide⟩ ⟨rfl, by decide⟩ ⟨rfl, by decide⟩
    (by
      intro i f hf hv hs
      match i with
      | 0 => rfl
      | 1 =>
        simp only [List.getElem?_cons_succ, List.getElem?_cons_zero, Option.some.injEq] at hf
        subst hf
        exact absurd hv (by decide)
      | 2 =>
        simp only [List.getElem?_cons_succ, List.getElem?_cons_zero, Option.some.injEq] at hf
        subst hf
        exact absurd hs (by decide)
      | j + 3 => simp at hf)
    (by
      intro i f hf hv hs
      match i with
      | 0 => rfl
      | 1 =>
        simp only [List.getElem?_cons_succ, List.getElem?_cons_zero, Option.some.injEq] at hf
        subst hf
        exact absurd hv (by decide)
      | 2 =>
        simp only [List.getElem?_cons_succ, List.getElem?_cons_zero, Option.some.injEq] at hf
        subst hf
        exact absurd hs (by decide)
      | j + 3 => simp at hf)
    ⟨rfl, by decide⟩ ⟨rfl, by decide⟩
    (Or.inr (Or.inr ⟨[], fieldX, fieldZ, [fieldW], [fieldX], rfl, rfl, Or.inl (by decide)⟩))

/-! ## C16: how timestamps are compared -/

theorem time_eq_iff (a b : Time) :
    a = b ↔ a.instant = b.instant ∧ a.mono = b.mono ∧ a.loc = b.loc := by
  cases a
  cases b
  simp

/-- C16, as stated, fails: `tNow` and `tNowUTC` denote the same instant and differ in
the location and the monotonic reading; `Insert` on the table of `DummyStruct` with the
timestamp column unique accepts a second record with `tNowUTC` after a first with
`tNow`, and `StructShallowEquals` reports two records that differ only in this way as
different. -/
theorem same_instant_not_matched :
    tNow.instant = tNowUTC.instant ∧
    "VisibleTime" ∈ dummyTable.Uniques ∧
    (dummyTable.Insert (dummy 1 "One" false 11 "OneOne" true tNow)).2 = .ok () ∧
    ((dummyTable.Insert (dummy 1 "One" false 11 "OneOne" true tNow)).1.Insert
      (dummy 2 "Two" false 22 "TwoTwo" true tNowUTC)).2 = .ok () ∧
    ((dummyTable.Insert (dummy 1 "One" false 11 "OneOne" true tNow)).1.Insert
      (dummy 2 "Two" false 22 "TwoTwo" true tNowUTC)).1.Count = 2 ∧
    StructShallowEquals (dummy 1 "One" false 11 "OneOne" true tNow)
      (dummy 1 "One" false 11 "OneOne" true tNowUTC) = .ok false := by
  decide

/-- C16, amended: timestamp fields are compared with Go's `==` on `time.Time`, which
holds exactly when the two values have the same instant, the same monotonic reading and
the same location pointer.  On a table whose stored rows are records of its record
type, a new record whose timestamp on a unique timestamp column, a declared field of
the record type, is `==` to that of a stored record is rejected with the uniqueness
error; two values denoting different
instants never match in the uniqueness scan, and two records of one type that hold
them in a visible timestamp field are never reported equal by `StructShallowEquals`. -/
theorem timestamps_compared_by_go_equality (st : StructTable) (name : String)
    (fields : List StructField) (data r x y : GoValue) (i : Nat) (f : StructField)
    (a b : Time)
    (hst : st.WellFormed name fields) (hdata : IsRecord name fields data)
    (hr : r ∈ st.dataSet) (hf : fields[i]? = some f) (hu : f.Name ∈ st.Uniques)
    (hk : GetBaseKindOfType f.Typ = BaseKindTime) (hv : f.visible)
    (hra : r.vals[i]? = some (.time a)) (hdb : data.vals[i]? = some (.time b))
    (hx : IsRecord name fields x) (hy : IsRecord name fields y)
    (hxa : x.vals[i]? = some (.time a)) (hyb : y.vals[i]? = some (.time b)) :
    uniqueMatch f.Typ ⟨f.Typ, .time a⟩ ⟨f.Typ, .time b⟩ =
      .ok (decide (a.instant = b.instant ∧ a.mono = b.mono ∧ a.loc = b.loc)) ∧
    shallowFieldEquals f.Typ ⟨f.Typ, .time a⟩ ⟨f.Typ, .time b⟩ =
      .ok (decide (a.instant = b.instant ∧ a.mono = b.mono ∧ a.loc = b.loc)) ∧
    (a.instant = b.instant ∧ a.mono = b.mono ∧ a.loc = b.loc →
      ∃ g, g ∈ fields ∧
        (st.Insert data).2 =
          .error (Errorf ErrUniqueConstraintViolation (" :  " ++ g.Name))) ∧
    (a.instant ≠ b.instant →
      uniqueMatch f.Typ ⟨f.Typ, .time a⟩ ⟨f.Typ, .time b⟩ = .ok false ∧
      StructShallowEquals x y = .ok false) := by
  have hta : (FieldValue.time a).hasType f.Typ = true := by simp [FieldValue.hasType, hk]
  have htb : (FieldValue.time b).hasType f.Typ = true := by simp [FieldValue.hasType, hk]
  have hgo : (FieldValue.time a).goEq (.time b) =
      decide (a.instant = b.instant ∧ a.mono = b.mono ∧ a.loc = b.loc) := by
    simp only [FieldValue.goEq, beq_iff_eq, time_eq_iff, decide_eq_decide]
    by_cases h : a = b
    · simp [h]
    · have h2 := h
      rw [time_eq_iff] at h2
      simp [h, h2]
  have hum := uniqueMatch_typed f.Typ (.time a) (.time b) hta htb
  have hsf := shallowFieldEquals_typed f.Typ (.time a) (.time b) hta htb
  rw [hgo] at hum
  simp only [hk, reduceCtorEq, ↓reduceIte, hgo] at hsf
  refine ⟨hum, hsf, ?_, ?_⟩
  · intro heq
    have hs : f.supported := by simp [StructField.supported, hk]
    have hsame : r.sameOn data i = true := by
      simp only [GoValue.sameOn, hra, hdb, hgo]
      simpa using heq
    rcases Insert_record_cases st name fields data hst hdata with ⟨h, _⟩ | ⟨_, _, hall⟩
    · exact h
    · have := hall i f hf hu hs r hr
      rw [hsame] at this
      cases this
  · intro hne
    have hfalse : decide (a.instant = b.instant ∧ a.mono = b.mono ∧ a.loc = b.loc) = false := by
      simp [hne]
    refine ⟨by rw [hum, hfalse], ?_⟩
    obtain ⟨res, hres, hiff⟩ := StructShallowEquals_same_type name fields x y hx hy
    have hs : f.supported := by simp [StructField.supported, hk]
    cases res with
    | false => exact hres
    | true =>
      have := hiff.mp rfl i f hf hv hs
      simp only [GoValue.sameOn, hxa, hyb, hgo, hfalse] at this
      cases this

theorem tableE_wellFormed : tableE.WellFormed "demo.E" [fieldT] where
  metaType := rfl
  uniques := by decide
  rows := by
    intro r hr
    simp only [tableE, List.mem_singleton] at hr
    subst hr
    exact ⟨rfl, by decide⟩

/-- C16, amended, at the table of `demo.E` holding `E{T: tNow}` and the new record
`E{T: tNow}`. -/
theorem timestamps_compared_by_go_equality_witness :
    uniqueMatch fieldT.Typ ⟨fieldT.Typ, .time tNow⟩ ⟨fieldT.Typ, .time tNow⟩ =
      .ok (decide (tNow.instant = tNow.instant ∧ tNow.mono = tNow.mono ∧
        tNow.loc = tNow.loc)) ∧
    shallowFieldEquals fieldT.Typ ⟨fieldT.Typ, .time tNow⟩ ⟨fieldT.Typ, .time tNow⟩ =
      .ok (decide (tNow.instant = tNow.instant ∧ tNow.mono = tNow.mono ∧
        tNow.loc = tNow.loc)) ∧
    (tNow.instant = tNow.instant ∧ tNow.mono = tNow.mono ∧ tNow.loc = tNow.loc →
      ∃ g, g ∈ [fieldT] ∧
        (tableE.Insert (valueE tNow)).2 =
          .error (Errorf ErrUniqueConstraintViolation (" :  " ++ g.Name))) ∧
    (tNow.instant ≠ tNow.instant →
      uniqueMatch fieldT.Typ ⟨fieldT.Typ, .time tNow⟩ ⟨fieldT.Typ, .time tNow⟩ = .ok false ∧
      StructShallowEquals (valueE tNow) (valueE tNow) = .ok false) :=
  timestamps_compared_by_go_equality tableE "demo.E" [fieldT] (valueE tNow) (valueE tNow)
    (valueE tNow) (valueE tNow) 0 fieldT tNow tNow tableE_wellFormed ⟨rfl, by decide⟩
    (by decide) (by decide) (by decide) (by decide) (by decide) (by decide) (by decide)
    ⟨rfl, by decide⟩ ⟨rfl, by decide⟩ (by decide) (by decide)

/-! ## C17: the scenario of the spelled numbers -/

set_option maxRecDepth 100000 in
theorem spellRun_outcomes : spellRun.2 = List.replicate 100 (.ok ()) := by
  decide!

set_option maxRecDepth 100000 in
theorem spellRun_rows : spellRun.1.dataSet = (List.range 100).map spelled := by
  decide!

set_option maxRecDepth 100000 in
theorem spellSelect_eq : spellSelect = .ok (twoPositions.map spelled) := by
  decide!

/-- C17, as stated, fails in its count: the `Select` of the scenario returns 19 records,
not 11 (the listed indices 2, 12, 20..29, 32, 42, ..., 92 are 19 numbers). -/
theorem spell_scenario_not_eleven :
    twoPositions.length = 19 ∧
    ¬ ∃ res, spellSelect = .ok res ∧ res.length = 11 := by
  refine ⟨rfl, ?_⟩
  rintro ⟨res, hres, hlen⟩
  rw [spellSelect_eq] at hres
  injection hres with hres
  rw [← hres] at hlen
  simp [twoPositions] at hlen

set_option maxRecDepth 100000 in
/-- C17, amended: into the empty table of `DummyStruct` whose string column is declared
unique, insert for `i = 0..99` the record whose string column is `GetSpell(i)` (12 gives
`"onetwo"`); all 100 inserts succeed, `Count()` is 100, and `Select` with the expression
`VisibleString.contains("two")` returns exactly the 19 records at the indices 2, 12,
20..29, 32, 42, 52, 62, 72, 82, 92, that is those whose decimal digits include 2, in
ascending insertion order. -/
theorem spell_scenario :
    GetSpell 12 = some "onetwo" ∧
    NewStructTable DummyStruct ["VisibleString"] = .ok spellTable0 ∧
    spellRun = spellTable0.insertAll ((List.range 100).map spelled) ∧
    spellRun.2 = List.replicate 100 (.ok ()) ∧
    spellRun.1.Count = 100 ∧
    spellRun.1.Select (celContains "VisibleString" "two") spellWhere [] 0 0 =
      .ok (twoPositions.map spelled) ∧
    twoPositions = (List.range 100).filter (fun i => (Nat.toDigits 10 i).contains '2') ∧
    twoPositions.length = 19 := by
  refine ⟨by decide, by decide, rfl, spellRun_outcomes, ?_, spellSelect_eq, by decide, rfl⟩
  rw [StructTable.Count, spellRun_rows]
  simp

/-! ## C20: what `ToMap` returns -/

theorem GoMap.set_fresh (m : GoMap) (k : String) (v : FieldValue)
    (h : k ∉ m.map Prod.fst) : GoMap.set m k v = m ++ [(k, v)] := by
  unfold GoMap.set
  have : m.any (fun p => p.1 == k) = false := by
    rw [List.any_eq_false]
    intro p hp hpk
    apply h
    simp only [beq_iff_eq] at hpk
    exact List.mem_map.mpr ⟨p, hp, hpk⟩
  simp [this]

/-- The value that `ToMap` stores for a well-typed field of supported kind is the
content of the field. -/
theorem toMap_stored (t : FieldType) (x : FieldValue) (hx : x.hasType t = true) :
    match GetBaseKindOfType t with
    | BaseKindInt => ∃ n, (Value.mk t x).getInt = some n ∧ x = .int n
    | BaseKindUint => ∃ n, (Value.mk t x).getUint = some n ∧ x = .uint n
    | BaseKindFloat => ∃ n, (Value.mk t x).getFloat = some n ∧ x = .float n
    | BaseKindBool => ∃ b, (Value.mk t x).getBool = some b ∧ x = .bool b
    | BaseKindString => x = .string (Value.mk t x).getString
    | BaseKindTime => ∃ tm, (Value.mk t x).getTime = some tm ∧ x = .time tm
    | BaseKindOther => True := by
  obtain ⟨k, str⟩ := t
  by_cases hs : str = "time.Time" <;> cases x <;> cases k <;>
    simp [FieldValue.hasType, GetBaseKindOfType, hs] at hx <;>
    simp [GetBaseKindOfType, Value.getBool, Value.getInt, Value.getUint, Value.getFloat,
      Value.getTime, Value.getString, Kind.isInt, Kind.isUint, Kind.isFloat, hs]

/-- One turn of the loop of `ToMap` on a record: a visible field of supported kind
assigns its entry, any other field is skipped. -/
theorem toMapLoop_step (name : String) (fields : List StructField) (v : GoValue)
    (hv : IsRecord name fields v) (k : Nat) (f : StructField) (rest : List StructField)
    (ret : GoMap) (x : FieldValue) (hf : fields[k]? = some f) (hx : v.vals[k]? = some x) :
    toMapLoop v k (f :: rest) ret =
      if f.visible ∧ f.supported then toMapLoop v (k + 1) rest (GoMap.set ret f.Name x)
      else toMapLoop v (k + 1) rest ret := by
  obtain ⟨y, hy, hyt, hfield⟩ := record_field name fields v hv k f hf
  rw [hx] at hy
  simp only [Option.some.injEq] at hy
  subst hy
  obtain ⟨c, hc⟩ := headByte_some f.Name f.nonempty
  have hvis : f.visible ↔ (65 ≤ c ∧ c ≤ 90) := by
    unfold StructField.visible
    constructor
    · rintro ⟨d, hd, hr⟩
      rw [hc] at hd
      simp only [Option.some.injEq] at hd
      subst hd
      exact hr
    · intro hr
      exact ⟨c, hc, hr⟩
  have hst := toMap_stored f.Typ x hyt
  simp only [toMapLoop, hc, hfield, hvis, StructField.supported]
  by_cases hr : 65 ≤ c ∧ c ≤ 90
  · have hn : ¬ (c < 65 ∨ c > 90) := by omega
    cases hk : GetBaseKindOfType f.Typ <;> rw [hk] at hst <;> simp only at hst
    · obtain ⟨n, hn1, hn2⟩ := hst
      subst hn2
      simp [hn, hr, hn1]
    · obtain ⟨n, hn1, hn2⟩ := hst
      subst hn2
      simp [hn, hr, hn1]
    · obtain ⟨n, hn1, hn2⟩ := hst
      subst hn2
      simp [hn, hr, hn1]
    · obtain ⟨n, hn1, hn2⟩ := hst
      subst hn2
      simp [hn, hr, hn1]
    · simp only [hn, hr, ↓reduceIte, reduceCtorEq, not_false_eq_true, and_self, or_false,
        ne_eq]
      rw [← hst]
    · obtain ⟨n, hn1, hn2⟩ := hst
      subst hn2
      simp [hn, hr, hn1]
    · simp [hn, hr]
  · have hn : c < 65 ∨ c > 90 := by omega
    have hc2 : c < 65 ∨ c > 90 ∨ GetBaseKindOfType f.Typ = BaseKindOther := by omega
    simp only [hc2, ↓reduceIte, hr, false_and]

theorem visibleSupportedNames_cons (f : StructField) (rest : List StructField) :
    visibleSupportedNames (f :: rest) =
      if f.visible ∧ f.supported then f.Name :: visibleSupportedNames rest
      else visibleSupportedNames rest := by
  unfold visibleSupportedNames
  by_cases h : f.visible ∧ f.supported <;> simp [List.filter_cons, h]

/-- The loop of `ToMap` on a record whose visible fields of supported kind have distinct
names appends the projection of the remaining fields. -/
theorem toMapLoop_project (name : String) (fields : List StructField) (v : GoValue)
    (hv : IsRecord name fields v) :
    ∀ (fs : List StructField) (k : Nat) (ret : GoMap),
      (∀ m f, fs[m]? = some f → fields[k + m]? = some f) →
      (ret.map Prod.fst ++ visibleSupportedNames fs).Nodup →
      toMapLoop v k fs ret = some (ret ++ projectVisible fs (v.vals.drop k)) := by
  intro fs
  induction fs with
  | nil => intro k ret _ _; simp [toMapLoop, projectVisible]
  | cons f rest ih =>
    intro k ret h hnd
    have hf0 : fields[k]? = some f := by simpa using h 0 f (by simp)
    have hshift : ∀ m g, rest[m]? = some g → fields[k + 1 + m]? = some g := by
      intro m g hg
      have := h (m + 1) g (by simpa using hg)
      rwa [show k + (m + 1) = k + 1 + m by omega] at this
    obtain ⟨x, hx, _, _⟩ := record_field name fields v hv k f hf0
    obtain ⟨hlt, hxe⟩ := List.getElem?_eq_some.mp hx
    have hdrop : v.vals.drop k = x :: v.vals.drop (k + 1) := by
      rw [List.drop_eq_getElem_cons hlt, hxe]
    rw [toMapLoop_step name fields v hv k f rest ret x hf0 hx, hdrop]
    rw [visibleSupportedNames_cons] at hnd
    by_cases hc : f.visible ∧ f.supported
    · simp only [hc, and_self, ↓reduceIte, projectVisible] at hnd ⊢
      have hfresh : f.Name ∉ ret.map Prod.fst := by
        intro hmem
        have := (List.nodup_append.mp hnd).2.2
        exact this hmem (by simp)
      rw [GoMap.set_fresh ret f.Name x hfresh]
      rw [ih (k + 1) (ret ++ [(f.Name, x)]) hshift (by simpa using hnd)]
      simp
    · simp only [hc, ↓reduceIte, projectVisible] at hnd ⊢
      exact ih (k + 1) ret hshift hnd

theorem mem_projectVisible (key : String) (x : FieldValue) :
    ∀ (fs : List StructField) (xs : List FieldValue),
      (key, x) ∈ projectVisible fs xs ↔
        ∃ (i : Nat) (f : StructField),
          fs[i]? = some f ∧ f.visible ∧ f.supported ∧ f.Name = key ∧ xs[i]? = some x := by
  intro fs
  induction fs with
  | nil => intro xs; simp [projectVisible]
  | cons f rest ih =>
    intro xs
    cases xs with
    | nil => simp [projectVisible]
    | cons y ys =>
      have hrest := ih ys
      constructor
      · intro hmem
        by_cases hc : f.visible ∧ f.supported
        · simp only [projectVisible, hc, and_self, ↓reduceIte, List.mem_cons, Prod.mk.injEq] at hmem
          rcases hmem with ⟨hk, hxy⟩ | hmem
          · exact ⟨0, f, by simp, hc.1, hc.2, hk.symm, by simp [hxy]⟩
          · obtain ⟨i, g, hg, hv, hs, hn, hxi⟩ := hrest.mp hmem
            exact ⟨i + 1, g, by simpa using hg, hv, hs, hn, by simpa using hxi⟩
        · simp only [projectVisible, hc, ↓reduceIte] at hmem
          obtain ⟨i, g, hg, hv, hs, hn, hxi⟩ := hrest.mp hmem
          exact ⟨i + 1, g, by simpa using hg, hv, hs, hn, by simpa using hxi⟩
      · rintro ⟨i, g, hg, hv, hs, hn, hxi⟩
        cases i with
        | zero =>
          simp only [List.getElem?_cons_zero, Option.some.injEq] at hg hxi
          subst hg
          subst hxi
          simp [projectVisible, hv, hs, hn]
        | succ j =>
          have hmem : (key, x) ∈ projectVisible rest ys :=
            hrest.mpr ⟨j, g, by simpa using hg, hv, hs, hn, by simpa using hxi⟩
          by_cases hc : f.visible ∧ f.supported
          · simp [projectVisible, hc, hmem]
          · simp only [projectVisible, hc, ↓reduceIte]
            exact hmem

theorem projectVisible_keys :
    ∀ (fs : List StructField) (xs : List FieldValue), valsTyped xs fs = true →
      (projectVisible fs xs).map Prod.fst = visibleSupportedNames fs := by
  intro fs
  induction fs with
  | nil => intro xs _; simp [projectVisible, visibleSupportedNames]
  | cons f rest ih =>
    intro xs h
    cases xs with
    | nil => simp [valsTyped] at h
    | cons y ys =>
      simp only [valsTyped, Bool.and_eq_true] at h
      rw [visibleSupportedNames_cons]
      by_cases hc : f.visible ∧ f.supported
      · simp [projectVisible, hc, ih ys h.2]
      · simp [projectVisible, hc, ih ys h.2]

/-- C20: for every struct value (the visible fields of supported kind of a Go struct have
distinct names), `ToMap` returns the mapping with exactly one entry per visible field
of supported kind and no other entry: the key is the field name and the value is the
field's value; non-visible fields and fields of unsupported kind give no key. -/
theorem ToMap_projects_visible_supported (name : String) (fields : List StructField)
    (v : GoValue) (hv : IsRecord name fields v)
    (hnames : (visibleSupportedNames fields).Nodup) :
    ToMap v = some (projectVisible fields v.vals) ∧
    ((projectVisible fields v.vals).map Prod.fst).Nodup ∧
    (projectVisible fields v.vals).map Prod.fst = visibleSupportedNames fields ∧
    ∀ key x, (key, x) ∈ projectVisible fields v.vals ↔
      ∃ (i : Nat) (f : StructField), fields[i]? = some f ∧ f.visible ∧ f.supported ∧
        f.Name = key ∧ v.vals[i]? = some x := by
  have hloop := toMapLoop_project name fields v hv fields 0 [] (by simp) (by simpa using hnames)
  have hkeys := projectVisible_keys fields v.vals hv.2
  refine ⟨?_, by rw [hkeys]; exact hnames, hkeys, fun key x => mem_projectVisible key x _ _⟩
  simpa [ToMap, hv.1, GoType.Fields] using hloop

/-- C20 at a value of `DummyStruct`: the four visible fields are projected, the three
unexported ones are not. -/
theorem ToMap_projects_visible_supported_witness :
    ToMap (dummy 1 "One" false 11 "OneOne" true tNow) =
      some [("VisibleInt", .int 1), ("VisibleString", .string "One"),
        ("VisibleBool", .bool false), ("VisibleTime", .time tNow)] :=
  (ToMap_projects_visible_supported "sqlfly.DummyStruct" _
    (dummy 1 "One" false 11 "OneOne" true tNow) ⟨rfl, by decide⟩ (by decide)).1.trans
    (by decide)

/-! ## C19: the declared variables and the projected keys -/

/-- The first loop of `filter` collects the names of the visible fields of supported
kind, except those of kind uintptr. -/
theorem filterFieldNames_eq (fs : List StructField) :
    filterFieldNames fs = some (declaredNames fs) := by
  induction fs with
  | nil => rfl
  | cons f rest ih =>
    obtain ⟨c, hc⟩ := headByte_some f.Name f.nonempty
    have hvis : f.visible ↔ (65 ≤ c ∧ c ≤ 90) := by
      unfold StructField.visible
      constructor
      · rintro ⟨d, hd, hr⟩
        rw [hc] at hd
        simp only [Option.some.injEq] at hd
        subst hd
        exact hr
      · intro hr
        exact ⟨c, hc, hr⟩
    unfold filterFieldNames
    simp only [hc, ih, Option.map_some, declaredNames, List.filter_cons, hvis,
      StructField.supported]
    by_cases hr : 65 ≤ c ∧ c ≤ 90
    · have hn : ¬ (c < 65 ∨ c > 90) := by omega
      rcases f with ⟨n, ⟨k, str⟩, hne, prom⟩
      by_cases hs : str = "time.Time" <;> cases k <;>
        simp [hn, hr, GetBaseKindOfType, hs]
    · have hn : c < 65 ∨ c > 90 := by omega
      simp [hn, hr]

theorem filterDeclarations_names (name : String) (fields : List StructField) :
    ∀ names : List String, (∀ n ∈ names, ∃ f ∈ fields, f.Name = n) →
      ∃ ds, filterDeclarations (.struct name fields) names = some ds ∧
        ds.map (fun d => d.name) = names := by
  intro names
  induction names with
  | nil => intro _; exact ⟨[], rfl, rfl⟩
  | cons n rest ih =>
    intro h
    obtain ⟨ds, hds, hnames⟩ := ih (fun m hm => h m (by simp [hm]))
    obtain ⟨f, hf, hfn⟩ := h n (by simp)
    cases hfind : (selectableFields fields).find? (fun g => g.Name == n) with
    | none =>
      have := List.find?_eq_none.mp hfind f (List.mem_append_left _ hf)
      simp [hfn] at this
    | some g =>
      unfold filterDeclarations
      simp only [GoType.FieldByName, hfind, hds, Option.map_some]
      exact ⟨_, rfl, by simp [hnames]⟩

/-- The variables that `filter` declares for a struct record type: the visible fields
of supported kind whose kind is not uintptr. -/
theorem declarations_names (st : StructTable) (name : String) (fields : List StructField)
    (hm : st.MetaType = .struct name fields) :
    ∃ ds, st.declarations = some ds ∧ ds.map (fun d => d.name) = declaredNames fields := by
  have hsub : ∀ n ∈ declaredNames fields, ∃ f ∈ fields, f.Name = n := by
    intro n hn
    simp only [declaredNames, List.mem_map, List.mem_filter] at hn
    obtain ⟨f, ⟨hf, _⟩, hfn⟩ := hn
    exact ⟨f, hf, hfn⟩
  obtain ⟨ds, hds, hnames⟩ := filterDeclarations_names name fields (declaredNames fields) hsub
  exact ⟨ds, by simp [StructTable.declarations, hm, GoType.Fields, filterFieldNames_eq, hds],
    hnames⟩

/-- C19 fails on the code: the first loop of `filter` lists the kinds it declares and
leaves out uintptr, which `GetBaseKindOfType` classifies as unsigned integer and `ToMap`
projects.  For the type `demo.P` (visible fields `N uintptr` and `S string`), `filter`
declares `S` only, while `ToMap` has the keys `N` and `S`, the visible fields whose
BaseKind is not `BaseKindOther`. -/
theorem filter_does_not_declare_uintptr :
    (StructTable.mk typeP [] []).declarations = some [⟨"S", some .string⟩] ∧
    ToMap valueP = some [("N", .uint 7), ("S", .string "a")] ∧
    visibleSupportedNames
      [{ Name := "N", Typ := ⟨.uintptr, "uintptr"⟩ }, { Name := "S", Typ := ⟨.string, "string"⟩ }] =
      ["N", "S"] ∧
    GetBaseKindOfType ⟨.uintptr, "uintptr"⟩ = BaseKindUint := by
  decide

/-- Without a visible field of kind uintptr the names that `filter` declares are the
names of the visible fields of supported kind, which are the keys of `ToMap` on a
record of the type. -/
theorem declared_names_without_uintptr (st : StructTable) (name : String)
    (fields : List StructField) (v : GoValue) (hm : st.MetaType = .struct name fields)
    (hv : IsRecord name fields v) (hnames : (visibleSupportedNames fields).Nodup)
    (hno : ∀ f ∈ fields, f.visible → f.Typ.kind ≠ Kind.uintptr) :
    ∃ ds m, st.declarations = some ds ∧ ToMap v = some m ∧
      ds.map (fun d => d.name) = visibleSupportedNames fields ∧
      m.map Prod.fst = visibleSupportedNames fields := by
  obtain ⟨ds, hds, hdn⟩ := declarations_names st name fields hm
  have hloop := toMapLoop_project name fields v hv fields 0 [] (by simp) (by simpa using hnames)
  have hkeys := projectVisible_keys fields v.vals hv.2
  have heq : declaredNames fields = visibleSupportedNames fields := by
    unfold declaredNames visibleSupportedNames
    congr 1
    apply List.filter_congr
    intro f hf
    by_cases hvis : f.visible
    · simp [hvis, hno f hf hvis]
    · simp [hvis]
  refine ⟨ds, projectVisible fields v.vals, hds, ?_, by rw [hdn, heq], hkeys⟩
  simpa [ToMap, hv.1, GoType.Fields] using hloop

/-! ## C21: the type invariant and the safety of the uniqueness scan -/

/-- Every call keeps the record type of a table, and keeps every stored row a struct
whose type name is the name of the record type, whatever value is inserted. -/
theorem run_named (calls : List Call) :
    ∀ st : StructTable, (∀ q ∈ st.dataSet, q.namedStruct st.MetaType.Str) →
      (∀ q ∈ (st.run calls).dataSet, q.namedStruct (st.run calls).MetaType.Str) ∧
      (st.run calls).MetaType = st.MetaType := by
  induction calls with
  | nil => intro st h; exact ⟨h, rfl⟩
  | cons c rest ih =>
    intro st h
    have hstep : (∀ q ∈ (st.call c).dataSet, q.namedStruct (st.call c).MetaType.Str) ∧
        (st.call c).MetaType = st.MetaType := by
      cases c with
      | Insert data =>
        simp only [StructTable.call]
        rcases Insert_state st data with ⟨_, hsame⟩ | ⟨hok, happ⟩
        · rw [hsame]
          exact ⟨h, rfl⟩
        · rw [happ]
          refine ⟨?_, rfl⟩
          intro q hq
          simp only [List.mem_append, List.mem_singleton] at hq
          rcases hq with hq | rfl
          · exact h q hq
          · exact Insert_ok_type st q hok
      | Select w o off len => exact ⟨h, rfl⟩
      | Count => exact ⟨h, rfl⟩
      | Update set w => exact ⟨h, rfl⟩
      | Delete w => exact ⟨h, rfl⟩
    obtain ⟨h1, h2⟩ := ih (st.call c) hstep.1
    exact ⟨h1, h2.trans hstep.2⟩

/-- On a table whose stored rows are records of its record type, `Insert` of a value
that is not nil and for which the type name determines the field list returns normally:
it neither panics nor ends the process. -/
theorem Insert_no_fault (st : StructTable) (name : String) (fields : List StructField)
    (data : GoValue) (hst : st.WellFormed name fields) (hd : NameDetermines name fields data)
    (hnn : data.typ ≠ none) :
    (st.Insert data).2 ≠ .panic ∧ (st.Insert data).2 ≠ .fatal := by
  cases ht : data.typ with
  | none => exact absurd ht hnn
  | some t =>
    by_cases hk : t.Kind = Kind.struct
    · by_cases hs : t.Str = st.MetaType.Str
      · have hname : t.Str = name := by rw [hs, hst.metaType]; rfl
        have hrec : IsRecord name fields data := hd t ht hk hname
        rcases Insert_record_cases st name fields data hst hrec with
          ⟨⟨g, _, herr⟩, _⟩ | ⟨hok, _, _⟩
        · rw [herr]
          exact ⟨by simp, by simp⟩
        · rw [hok]
          exact ⟨by simp, by simp⟩
      · simp [StructTable.Insert, ht, hk, hs]
    · simp [StructTable.Insert, ht, hk]

/-- Without the assumption that the type name determines the field list the scan can
fault: the table of `demo.T` (fields `X`, `W`; `W` unique) accepts the value
`T{X: "a"}` of a type named `demo.T` with a single field, and the next `Insert` of a
record of the table's type reads field 1 of that row and panics. -/
theorem scan_faults_on_same_named_type :
    NewStructTable typeT ["W"] = .ok tableTW ∧
    (tableTW.Insert valueT1).2 = .ok () ∧
    (tableTW.Insert valueT1).1.dataSet = [valueT1] ∧
    valueT1.namedStruct (tableTW.Insert valueT1).1.MetaType.Str ∧
    valueT1.Field 1 = none ∧
    ((tableTW.Insert valueT1).1.Insert valueT).2 = .panic := by
  refine ⟨by decide, by decide, by decide, ⟨typeT1, rfl, rfl, by decide⟩, by decide, by decide⟩

/-- C21: in every table reachable from `NewStructTable` by any sequence of calls, every
stored record is a struct whose type name is the name of the table's record type.  When
moreover the type name determines the field list of the inserted values, every field
position `i` of the record type is within the range of every stored row and holds a
content of the type, hence the kind, of the new record's field `i`, the comparison of
the scan does not panic, and `Insert` of a value that is not nil returns normally.
`Insert` of the nil value panics, on any table: it does fault. -/
theorem reachable_rows_named_and_scan_safe (metaType : GoType) (uniques : List String)
    (st0 : StructTable) (name : String) (fields : List StructField)
    (calls tcalls : List Call) (data r : GoValue) (i : Nat) (f : StructField)
    (h : NewStructTable metaType uniques = .ok st0)
    (hm : st0.MetaType = .struct name fields)
    (htc : ∀ c ∈ tcalls, c.typed name fields)
    (hd : NameDetermines name fields data) (hnn : data.typ ≠ none)
    (hr : r ∈ (st0.run tcalls).dataSet) (hf : fields[i]? = some f) :
    (∀ q ∈ (st0.run calls).dataSet, q.namedStruct (st0.run calls).MetaType.Str) ∧
    (st0.run calls).MetaType = .struct name fields ∧
    (∃ x, r.Field i = some ⟨f.Typ, x⟩ ∧ x.hasType f.Typ = true ∧
      ∀ y, y.hasType f.Typ = true →
        uniqueMatch f.Typ ⟨f.Typ, x⟩ ⟨f.Typ, y⟩ = .ok (x.goEq y)) ∧
    (data.namedStruct name → ∃ y, data.Field i = some ⟨f.Typ, y⟩ ∧ y.hasType f.Typ = true) ∧
    ((st0.run tcalls).Insert data).2 ≠ .panic ∧
    ((st0.run tcalls).Insert data).2 ≠ .fatal ∧
    ((st0.run tcalls).Insert nilValue).2 = .panic ∧
    ((st0.run calls).Insert nilValue).2 = .panic := by
  obtain ⟨hd0, _, _, _⟩ := NewStructTable_ok metaType uniques st0 h
  have hwf0 := NewStructTable_wellFormed metaType uniques st0 name fields h hm
  have huniq : UniqueRows st0.Uniques fields st0.dataSet := by
    rw [hd0]
    exact List.Pairwise.nil
  obtain ⟨hwf, _, _⟩ := run_preserves name fields tcalls st0 hwf0 huniq htc
  obtain ⟨hnamed, hmeta⟩ := run_named calls st0 (by rw [hd0]; intro q hq; cases hq)
  obtain ⟨x, _, hxt, hfield⟩ := record_field name fields r (hwf.rows r hr) i f hf
  obtain ⟨hnp, hnf⟩ := Insert_no_fault (st0.run tcalls) name fields data hwf hd hnn
  refine ⟨hnamed, hmeta.trans hm, ⟨x, hfield, hxt, fun y hy => uniqueMatch_typed f.Typ x y hxt hy⟩,
    ?_, hnp, hnf, rfl, rfl⟩
  rintro ⟨t, ht, hk, hs⟩
  obtain ⟨y, _, hyt, hyf⟩ := record_field name fields data (hd t ht hk hs) i f hf
  exact ⟨y, hyf, hyt⟩

/-- C21 at the table of `demo.Pair` with `A` unique: after arbitrary calls (a value of
`demo.T` and the nil value among them) the rows are structs named `demo.Pair`; after
the inserts `{1, 10}` and `{2, 20}`, field 0 of the row `{1, 10}` is read safely and
`Insert` of `{3, 30}` returns normally, while `Insert` of the nil value panics. -/
theorem reachable_rows_named_and_scan_safe_witness :
    (∀ q ∈ (pairTableA.run [.Insert (pair 1 10), .Insert valueT, .Insert nilValue]).dataSet,
      q.namedStruct
        (pairTableA.run [.Insert (pair 1 10), .Insert valueT, .Insert nilValue]).MetaType.Str) ∧
    (pairTableA.run [.Insert (pair 1 10), .Insert valueT, .Insert nilValue]).MetaType =
      .struct "demo.Pair" [fieldA, fieldB] ∧
    (∃ x, (pair 1 10).Field 0 = some ⟨fieldA.Typ, x⟩ ∧ x.hasType fieldA.Typ = true ∧
      ∀ y, y.hasType fieldA.Typ = true →
        uniqueMatch fieldA.Typ ⟨fieldA.Typ, x⟩ ⟨fieldA.Typ, y⟩ = .ok (x.goEq y)) ∧
    ((pair 3 30).namedStruct "demo.Pair" →
      ∃ y, (pair 3 30).Field 0 = some ⟨fieldA.Typ, y⟩ ∧ y.hasType fieldA.Typ = true) ∧
    ((pairTableA.run [.Insert (pair 1 10), .Insert (pair 2 20)]).Insert (pair 3 30)).2 ≠
      .panic ∧
    ((pairTableA.run [.Insert (pair 1 10), .Insert (pair 2 20)]).Insert (pair 3 30)).2 ≠
      .fatal ∧
    ((pairTableA.run [.Insert (pair 1 10), .Insert (pair 2 20)]).Insert nilValue).2 = .panic ∧
    ((pairTableA.run [.Insert (pair 1 10), .Insert valueT, .Insert nilValue]).Insert
      nilValue).2 = .panic :=
  reachable_rows_named_and_scan_safe pairType ["A"] pairTableA "demo.Pair" [fieldA, fieldB]
    [.Insert (pair 1 10), .Insert valueT, .Insert nilValue]
    [.Insert (pair 1 10), .Insert (pair 2 20)] (pair 3 30) (pair 1 10) 0 fieldA
    (by decide) rfl
    (by
      intro c hc
      simp only [List.mem_cons, List.mem_singleton, List.not_mem_nil, or_false] at hc
      rcases hc with rfl | rfl
      · intro _ _ _ _; exact ⟨rfl, by decide⟩
      · intro _ _ _ _; exact ⟨rfl, by decide⟩)
    (by intro _ _ _ _; exact ⟨rfl, by decide⟩)
    (by decide) (by decide) (by decide)

end Sqlfly
